import Mathlib

/-!
Shallow embedding of the `deuter` HTTP/2 framing core (error taxonomy,
`AsyncBufReader`, the `FrameHeader` codec, the frame variants Settings /
Headers / Priority / Unknown, the `read_frame` / `write_frame` dispatcher and
`FrameIter`), together with theorems settling the specification claims.

Conventions of the embedding:
* machine integers are `Nat` (or `Int` for `i32`) with explicit `% 2^w` where
  the code can overflow; a Rust octet is a `Nat` that callers keep `< 256`;
* byte streams are `List Nat`; a reader is threaded explicitly: a decoder
  takes the input list and returns the decoded value together with the
  remaining input;
* fallible code returns `RResult`: `ok`, `err kind` (the crate's `Error`
  reduced to its `ErrorKind`, the only part the claims mention), or `crash`
  for a Rust panic / abort (checked integer over- and underflow, out-of-range
  slicing, `copy_from_slice` length mismatch, `byteorder` size assertions).
-/

namespace Deuter

/-- `ErrorKind` from `src/error.rs` (the numeric codes play no role in the
claims and are omitted). -/
inductive ErrorKind where
  | Protocol
  | Internal
  | FlowControl
  | FrameSize
  | RefusedStream
  | Cancel
  | Compression
  | Connect
  | EnhanceYourCalm
  | InadequateSecurity
  | Http11Required
  deriving DecidableEq, Repr

/-- Outcome of running a piece of the Rust code: success, an `error::Error`
(kept as its kind), or a panic/abort (`crash`). -/
inductive RResult (α : Type) where
  | ok (val : α)
  | err (kind : ErrorKind)
  | crash
  deriving DecidableEq, Repr

namespace RResult

def bind {α β : Type} : RResult α → (α → RResult β) → RResult β
  | .ok a, f => f a
  | .err k, _ => .err k
  | .crash, _ => .crash

def map {α β : Type} (f : α → β) : RResult α → RResult β
  | .ok a => .ok (f a)
  | .err k => .err k
  | .crash => .crash

end RResult

instance : Monad RResult where
  pure := RResult.ok
  bind := RResult.bind

/-- `Read::read_exact` on a byte stream: take `n` octets or fail.  A short
read surfaces as an `io::Error`, which the decoders wrap as `Internal`. -/
def readExact (n : Nat) (input : List Nat) : RResult (List Nat × List Nat) :=
  if n ≤ input.length then .ok (input.take n, input.drop n) else .err .Internal

/-- Checked `usize` subtraction: Rust's `a - b` aborts on underflow. -/
def checkedSub (a b : Nat) : RResult Nat :=
  if b ≤ a then .ok (a - b) else .crash

/-- Big-endian recomposition of a byte list (`byteorder`'s `read_uint`,
`read_u16`, `read_u32` applied to the bytes actually consumed). -/
def readBE (bs : List Nat) : Nat :=
  bs.foldl (fun acc b => acc * 256 + b) 0

/-- `BigEndian::write_uint(buf, v, 3)`; the caller checks the 24-bit bound
(`byteorder` asserts it and aborts otherwise). -/
def u24Bytes (v : Nat) : List Nat :=
  [v / 65536 % 256, v / 256 % 256, v % 256]

/-- `BigEndian::write_u32`. -/
def u32Bytes (v : Nat) : List Nat :=
  [v / 16777216 % 256, v / 65536 % 256, v / 256 % 256, v % 256]

/-- `BigEndian::write_u16`. -/
def u16Bytes (v : Nat) : List Nat :=
  [v / 256 % 256, v % 256]

/-- The `i32 → u32` cast (`val as u32`): two's complement. -/
def u32OfI32 (v : Int) : Nat := (v % 4294967296).toNat

/-- A 31-bit stream identifier. -/
structure StreamId where
  val : Nat
  deriving DecidableEq, Repr

/-- Modelled from the spec: the `StreamId` type itself (its struct and the
`From<u32>`/`Into<u32>` conversions) is code of this repository that is not
under `src/` — `src` only uses it (`StreamId(0)`, `.into()`, comparisons).
Per spec §3 a `StreamId` is "constructed from a 32-bit wire value by clearing
the reserved high bit"; clearing bit 31 of `w` is `w % 2^31`. -/
def StreamId.fromWire (w : Nat) : StreamId := ⟨w % 2147483648⟩

/-- `FrameType` is `u8`. -/
abbrev FrameType := Nat

/-- The flag constants of `frame/mod.rs`'s `bitflags!` block.  `Flags` itself
is embedded as the raw `Nat` bit set; the Rust type can only hold subsets of
`FLAGS_ALL`. -/
def FLAG_ACK : Nat := 0x01
def FLAG_END_STREAM : Nat := 0x01
def FLAG_END_HEADERS : Nat := 0x04
def FLAG_PADDED : Nat := 0x08
def FLAG_PRIORITY : Nat := 0x20

/-- The union of all defined flag bits (`Flags::all()`), `0x2D`. -/
def FLAGS_ALL : Nat := 0x2D

/-- `Flags::from_bits_truncate`: keep only the defined bits. -/
def fromBitsTruncate (b : Nat) : Nat := Nat.land b FLAGS_ALL

/-- `Flags::contains(flag)` for the single-bit constants above:
`(bits & flag) == flag`. -/
def flagsContain (bits flag : Nat) : Bool := Nat.land bits flag == flag

/-- `FrameHeader` from `src/frame/mod.rs`. -/
structure FrameHeader where
  payload_len : Nat
  frame_type : FrameType
  flags : Nat
  stream_id : StreamId
  deriving DecidableEq, Repr

/-- `FrameHeader::from_reader`: read 9 octets (short read is an `io::Error`,
surfaced as `Internal`), split the fields, truncate unknown flag bits, clear
the reserved stream-id bit. -/
def FrameHeader.from_reader : List Nat → RResult (FrameHeader × List Nat)
  | b0 :: b1 :: b2 :: b3 :: b4 :: b5 :: b6 :: b7 :: b8 :: rest =>
      .ok ({ payload_len := readBE [b0, b1, b2],
             frame_type := b3,
             flags := fromBitsTruncate b4,
             stream_id := StreamId.fromWire (readBE [b5, b6, b7, b8]) }, rest)
  | _ => .err .Internal

/-- `FrameHeader::into_writer`: 9 octets, big-endian; `write_uint(_, _, 3)`
aborts when `payload_len` does not fit into 24 bits. -/
def FrameHeader.into_writer (h : FrameHeader) : RResult (List Nat) :=
  if h.payload_len < 16777216 then
    .ok (u24Bytes h.payload_len ++ [h.frame_type % 256, h.flags % 256]
          ++ u32Bytes h.stream_id.val)
  else .crash

/-! ## Settings frames (`src/frame/settings.rs`) -/

/-- `Setting` (rfc 6.5.2 parameters). -/
inductive Setting where
  | HeaderTableSize (v : Nat)
  | EnablePush (v : Bool)
  | MaxConcurrentStreams (v : Nat)
  | InitialWindowSize (v : Int)
  | MaxFrameSize (v : Nat)
  | MaxHeaderListSize (v : Nat)
  deriving DecidableEq, Repr

structure SettingsFrame where
  settings : List Setting
  ack : Bool
  deriving DecidableEq, Repr

def MAX_FLOW_CONTROL_WINDOW_SIZE : Nat := 2147483647
def MIN_FRAME_SIZE : Nat := 16384
def MAX_FRAME_SIZE : Nat := 16777215

/-- The pair loop of `parse_payload`: 6-octet `(id, value)` records, pushed in
wire order; unknown identifiers are discarded (`continue`).  The leftover
pattern is unreachable after the multiple-of-6 length check. -/
def parsePairs : List Nat → RResult (List Setting)
  | i1 :: i0 :: v3 :: v2 :: v1 :: v0 :: rest =>
      let id := readBE [i1, i0]
      let val := readBE [v3, v2, v1, v0]
      match id with
      | 1 => (parsePairs rest).map (Setting.HeaderTableSize val :: ·)
      | 2 =>
        match val with
        | 0 => (parsePairs rest).map (Setting.EnablePush false :: ·)
        | 1 => (parsePairs rest).map (Setting.EnablePush true :: ·)
        | _ => .err .Protocol
      | 3 => (parsePairs rest).map (Setting.MaxConcurrentStreams val :: ·)
      | 4 =>
        if val > MAX_FLOW_CONTROL_WINDOW_SIZE then .err .FlowControl
        else (parsePairs rest).map (Setting.InitialWindowSize (val : Int) :: ·)
      | 5 =>
        if val < MIN_FRAME_SIZE ∨ val > MAX_FRAME_SIZE then .err .Protocol
        else (parsePairs rest).map (Setting.MaxFrameSize val :: ·)
      | 6 => (parsePairs rest).map (Setting.MaxHeaderListSize val :: ·)
      | _ => parsePairs rest
  | _ => .ok []

/-- `parse_payload` of `src/frame/settings.rs`. -/
def parse_payload (payload : List Nat) : RResult (List Setting) :=
  if payload.length % 6 ≠ 0 then .err .FrameSize
  else parsePairs payload

/-- `SettingsFrame::from_raw` (`src/frame/settings.rs` lines 32–47). -/
def SettingsFrame.from_raw (header : FrameHeader) (input : List Nat) :
    RResult (SettingsFrame × List Nat) :=
  if header.stream_id ≠ ⟨0⟩ then .err .Protocol
  else
    let ack := Nat.land header.flags FLAG_ACK != 0
    if ack && (header.payload_len != 0) then .err .FrameSize
    else
      match readExact header.payload_len input with
      | .ok (payload, rest) =>
          (parse_payload payload).bind fun s => .ok ({ settings := s, ack := ack }, rest)
      | .err k => .err k
      | .crash => .crash

/-- One `(id, value)` record of `write_payload` (the `match *setting` arm). -/
def Setting.wire : Setting → Nat × Nat
  | .HeaderTableSize v => (0x1, v)
  | .EnablePush v => (0x2, if v then 1 else 0)
  | .MaxConcurrentStreams v => (0x3, v)
  | .InitialWindowSize v => (0x4, u32OfI32 v)
  | .MaxFrameSize v => (0x5, v)
  | .MaxHeaderListSize v => (0x6, v)

def Setting.wireBytes (s : Setting) : List Nat :=
  u16Bytes s.wire.1 ++ u32Bytes s.wire.2

/-- `SettingsFrame::write_payload`: the stored settings in order, 6 octets
each. -/
def SettingsFrame.write_payload (f : SettingsFrame) : List Nat :=
  (f.settings.map Setting.wireBytes).flatten

/-! ## Priority frames (`src/frame/priority.rs`) -/

def DEFAULT_WEIGHT : Nat := 16
def PRIORITY_PAYLOAD_LENGTH : Nat := 5

structure PriorityFrame where
  stream_id : StreamId
  exclusive : Bool
  dependency : StreamId
  weight : Nat
  deriving DecidableEq, Repr

/-- `PriorityFrame::read` (`src/frame/priority.rs` lines 44–62).  The
`Frame::from_reader` impl referenced by the dispatcher and by
`HeadersFrame::from_reader` is this function (the snapshot under `src` names
it `read`).  `buf[4] + 1` is a checked `u8` addition: it aborts when
`weight_raw = 255`. -/
def PriorityFrame.read (header : FrameHeader) (input : List Nat) :
    RResult (PriorityFrame × List Nat) :=
  if header.stream_id = ⟨0⟩ then .err .Protocol
  else if header.payload_len ≠ PRIORITY_PAYLOAD_LENGTH then .err .FrameSize
  else
    match input with
    | b0 :: b1 :: b2 :: b3 :: b4 :: rest =>
        let dep := readBE [b0, b1, b2, b3]
        if b4 + 1 ≥ 256 then .crash
        else
          .ok ({ stream_id := header.stream_id,
                 exclusive := Nat.land dep 0x80000000 != 0,
                 dependency := StreamId.fromWire dep,
                 weight := b4 + 1 }, rest)
    | _ => .err .Internal

/-- `PriorityFrame::write_payload` (`src/frame/priority.rs` lines 64–74).
`self.weight - 1` is a checked `u8` subtraction: it aborts on `weight = 0`. -/
def PriorityFrame.write_payload (f : PriorityFrame) : RResult (List Nat) :=
  let dep := if f.exclusive then Nat.lor f.dependency.val 0x80000000
             else f.dependency.val
  if f.weight = 0 then .crash
  else .ok (u32Bytes dep ++ [(f.weight - 1) % 256])

/-! ## Headers frames (`src/frame/headers.rs`) -/

structure HeadersFrame where
  stream_id : StreamId
  fragment : List Nat
  priority : Option PriorityFrame
  end_headers : Bool
  end_stream : Bool
  deriving DecidableEq, Repr

/-- `HeadersFrame::from_reader` (`src/frame/headers.rs` lines 52–90).  The
two `payload_len -= …` statements are checked `usize` subtractions. -/
def HeadersFrame.from_reader (header : FrameHeader) (input : List Nat) :
    RResult (HeadersFrame × List Nat) :=
  if header.stream_id = ⟨0⟩ then .err .Protocol
  else do
    let (pad_len, len1, rest1) ←
      if flagsContain header.flags FLAG_PADDED then
        match input with
        | b :: rest => do
            let pl ← checkedSub header.payload_len (b + 1)
            pure (b, pl, rest)
        | [] => RResult.err .Internal
      else pure (0, header.payload_len, input)
    let (prio, len2, rest2) ←
      if flagsContain header.flags FLAG_PRIORITY then do
        let (pf, r) ← PriorityFrame.read header rest1
        let pl ← checkedSub len1 PRIORITY_PAYLOAD_LENGTH
        pure (some pf, pl, r)
      else pure (none, len1, rest1)
    let (fragment, rest3) ← readExact len2 rest2
    let (_, rest4) ←
      if flagsContain header.flags FLAG_PADDED then readExact pad_len rest3
      else pure ([], rest3)
    pure ({ stream_id := header.stream_id, fragment := fragment,
            priority := prio,
            end_headers := flagsContain header.flags FLAG_END_HEADERS,
            end_stream := flagsContain header.flags FLAG_END_STREAM }, rest4)

/-- `HeadersFrame::into_writer`: optional priority sub-record then the
fragment; padding is never emitted. -/
def HeadersFrame.into_writer (f : HeadersFrame) : RResult (List Nat) := do
  let pb ←
    match f.priority with
    | some p => p.write_payload
    | none => pure []
  pure (pb ++ f.fragment)

def HeadersFrame.payload_len (f : HeadersFrame) : Nat :=
  f.fragment.length + if f.priority.isSome then PRIORITY_PAYLOAD_LENGTH else 0

/-- `HeadersFrame::flags`: built by `Flags::insert` (bitwise or). -/
def HeadersFrame.flagBits (f : HeadersFrame) : Nat :=
  Nat.lor (Nat.lor (if f.end_headers then FLAG_END_HEADERS else 0)
                   (if f.end_stream then FLAG_END_STREAM else 0))
          (if f.priority.isSome then FLAG_PRIORITY else 0)

/-! ## Unknown frames (`src/frame/unknown.rs`) -/

structure UnknownFrame where
  stream_id : StreamId
  flags : Nat
  frame_type : FrameType
  payload : List Nat
  deriving DecidableEq, Repr

/-- `UnknownFrame::from_reader`: consume exactly `payload_len` octets. -/
def UnknownFrame.from_reader (header : FrameHeader) (input : List Nat) :
    RResult (UnknownFrame × List Nat) :=
  match readExact header.payload_len input with
  | .ok (payload, rest) =>
      .ok ({ stream_id := header.stream_id, flags := header.flags,
             frame_type := header.frame_type, payload := payload }, rest)
  | .err k => .err k
  | .crash => .crash

/-! ## The dispatcher (`src/frame/mod.rs`) -/

def HEADER_SIZE : Nat := 9
def TYPE_HEADERS : FrameType := 0x1
def TYPE_PRIORITY : FrameType := 0x2
def TYPE_SETTINGS : FrameType := 0x4

inductive FrameKind where
  | Headers (f : HeadersFrame)
  | Priority (f : PriorityFrame)
  | Settings (f : SettingsFrame)
  | Unknown (f : UnknownFrame)
  deriving DecidableEq, Repr

/-- `ReadFrame::read_frame_checked`: header, size gate, dispatch on the type
octet (the Rust `match` on `frame_type`, written as an `if` chain). -/
def read_frame_checked (max_size : Nat) (input : List Nat) :
    RResult (FrameKind × List Nat) := do
  let (header, rest) ← FrameHeader.from_reader input
  if header.payload_len > max_size then RResult.err .FrameSize
  else if header.frame_type = TYPE_HEADERS then do
    let (f, r) ← HeadersFrame.from_reader header rest
    pure (FrameKind.Headers f, r)
  else if header.frame_type = TYPE_SETTINGS then do
    let (f, r) ← SettingsFrame.from_raw header rest
    pure (FrameKind.Settings f, r)
  else if header.frame_type = TYPE_PRIORITY then do
    let (f, r) ← PriorityFrame.read header rest
    pure (FrameKind.Priority f, r)
  else do
    let (f, r) ← UnknownFrame.from_reader header rest
    pure (FrameKind.Unknown f, r)

/-- `ReadFrame::read_frame`: `read_frame_checked(usize::max_value())`. -/
def read_frame (input : List Nat) : RResult (FrameKind × List Nat) :=
  read_frame_checked (2 ^ 64 - 1) input

/-- `FrameHeader::new(&frame)`: the header derived from a frame's
`payload_len` / `frame_type` / `flags` / `stream_id` methods (for
`PriorityFrame`, its `header()` method, which yields the same fields). -/
def FrameKind.header : FrameKind → FrameHeader
  | .Headers f => ⟨f.payload_len, TYPE_HEADERS, f.flagBits, f.stream_id⟩
  | .Priority f => ⟨PRIORITY_PAYLOAD_LENGTH, TYPE_PRIORITY, 0, f.stream_id⟩
  | .Settings f => ⟨6 * f.settings.length, TYPE_SETTINGS,
                    if f.ack then 1 else 0, ⟨0⟩⟩
  | .Unknown f => ⟨f.payload.length, f.frame_type, f.flags, f.stream_id⟩

/-- The variant payload encoder (`Frame::into_writer` / `write`). -/
def FrameKind.into_writer : FrameKind → RResult (List Nat)
  | .Headers f => f.into_writer
  | .Priority f => f.write_payload
  | .Settings f => .ok f.write_payload
  | .Unknown f => .ok f.payload

/-- `WriteFrame::write_frame`: header octets then the variant payload. -/
def write_frame (f : FrameKind) : RResult (List Nat) := do
  let hb ← f.header.into_writer
  let pb ← f.into_writer
  pure (hb ++ pb)

/-! ## FrameIter (`src/frame/mod.rs` lines 137–178) -/

/-- A yielded `Result<FrameKind>` item of the iterator. -/
inductive FrameResult where
  | ok (f : FrameKind)
  | err (k : ErrorKind)
  deriving DecidableEq, Repr

structure FrameIter where
  buf : List Nat
  pos : Nat
  max_payload : Nat
  deriving DecidableEq, Repr

def FrameIter.len (it : FrameIter) : Nat := it.buf.length - it.pos

/-- `Iterator::next` for `FrameIter`.  `None` is `ok (none, it)`; a yielded
item is `ok (some _, it')`.  After the `len() < 3` guard the code slices
`&buf[..4]`, so a remainder of exactly 3 octets aborts (out-of-range slice);
on a yielded item — error or frame — the cursor has already advanced by
`payload_len + HEADER_SIZE`, and the decode runs on the whole remaining
slice. -/
def FrameIter.next (it : FrameIter) :
    RResult (Option FrameResult × FrameIter) :=
  if it.len < 3 then .ok (none, it)
  else
    match it.buf.drop it.pos with
    | b0 :: b1 :: b2 :: _b3 :: _tail =>
        let payload_len := readBE [b0, b1, b2]
        if payload_len > it.max_payload then .ok (some (.err .FrameSize), it)
        else
          let size := payload_len + HEADER_SIZE
          if it.len < size then .ok (none, it)
          else
            let it2 := { it with pos := it.pos + size }
            match read_frame (it.buf.drop it.pos) with
            | .ok (f, _) => .ok (some (.ok f), it2)
            | .err k => .ok (some (.err k), it2)
            | .crash => .crash
    | _ => .crash

/-! ## AsyncBufReader (`src/buffer.rs`)

The spec requires the inner source to be non-blocking; a call to
`inner.read` is modelled by consuming the head of a list of responses:
`chunk bs` delivers `bs` clamped to the destination's length (a reader
returns at most `buf.len()` bytes), `wouldBlock` is the would-block
`io::Error`, `ioFail` any other `io::Error`.  An exhausted list reads as
end-of-file (0 bytes). -/

def INITIAL_BUF_SIZE : Nat := 64
def DEFAULT_BUF_SIZE : Nat := 8 * 1024

structure AsyncBufReader where
  buf : List Nat
  pos : Nat
  cap : Nat
  deriving DecidableEq, Repr

inductive ReadResp where
  | chunk (bs : List Nat)
  | wouldBlock
  | ioFail
  deriving DecidableEq, Repr

def AsyncBufReader.new : AsyncBufReader :=
  ⟨List.replicate INITIAL_BUF_SIZE 0, 0, 0⟩

def AsyncBufReader.length (st : AsyncBufReader) : Nat := st.cap - st.pos

/-- The grow step at the top of the `fill_buf` loop: when `cap` equals the
backing store's length, allocate `len() + min(len(), DEFAULT_BUF_SIZE)`
zeroes and `copy_from_slice` the readable window into it (here
`st.cap - st.pos` is the readable length `self.len()`, a checked
subtraction).  `copy_from_slice` aborts unless source and destination
lengths are equal, i.e. unless the added room is zero. -/
def AsyncBufReader.growStep (st : AsyncBufReader) : RResult AsyncBufReader :=
  if st.cap = st.buf.length then
    if st.cap < st.pos then .crash
    else
      if (st.cap - st.pos) + min (st.cap - st.pos) DEFAULT_BUF_SIZE
          = st.cap - st.pos then
        .ok ⟨(st.buf.drop st.pos).take (st.cap - st.pos), st.pos, st.cap⟩
      else .crash
  else .ok st

/-- One octet-delivery into the store at offset `cap` (the effect of
`self.inner.read(&mut self.buf[self.cap..])` writing `data`). -/
def AsyncBufReader.writeAt (st : AsyncBufReader) (data : List Nat) :
    AsyncBufReader :=
  ⟨st.buf.take st.cap ++ data ++ st.buf.drop (st.cap + data.length),
   st.pos, st.cap + data.length⟩

/-- The `fill_buf` loop: grow if full, read up to the free room
(`st1.buf.length - st1.cap`, a checked subtraction — the guard models its
underflow), treat would-block as 0 octets, advance `cap`, and stop exactly
when the read returned strictly fewer octets than the room.  An exact fill
with an exhausted source would re-read `0 == 0` octets forever; that
unreachable case is an abort here. -/
def AsyncBufReader.fillLoop :
    AsyncBufReader → List ReadResp → RResult (AsyncBufReader × List ReadResp)
  | st, [] =>
    (st.growStep).bind fun st1 =>
      if st1.buf.length < st1.cap then .crash
      else if st1.buf.length - st1.cap ≠ 0 then .ok (st1, []) else .crash
  | st, .ioFail :: _ =>
    (st.growStep).bind fun st1 =>
      if st1.buf.length < st1.cap then .crash
      else .err .Internal
  | st, .wouldBlock :: src1 =>
    (st.growStep).bind fun st1 =>
      if st1.buf.length < st1.cap then .crash
      else if st1.buf.length - st1.cap ≠ 0 then .ok (st1, src1)
      else AsyncBufReader.fillLoop st1 src1
  | st, .chunk bs :: src1 =>
    (st.growStep).bind fun st1 =>
      if st1.buf.length < st1.cap then .crash
      else if (bs.take (st1.buf.length - st1.cap)).length
          ≠ st1.buf.length - st1.cap then
        .ok (st1.writeAt (bs.take (st1.buf.length - st1.cap)), src1)
      else
        AsyncBufReader.fillLoop
          (st1.writeAt (bs.take (st1.buf.length - st1.cap))) src1

/-- `BufRead::fill_buf`: run the loop, then return the readable window
`[pos, cap)` together with the final state. -/
def AsyncBufReader.fill_buf (st : AsyncBufReader) (src : List ReadResp) :
    RResult (List Nat × AsyncBufReader × List ReadResp) :=
  match AsyncBufReader.fillLoop st src with
  | .ok (st1, src1) =>
      .ok ((st1.buf.drop st1.pos).take (st1.cap - st1.pos), st1, src1)
  | .err k => .err k
  | .crash => .crash

/-- `BufRead::consume`: advance `pos` by at most the readable length; when
`pos` catches up with `cap`, reset both to zero. -/
def AsyncBufReader.consume (st : AsyncBufReader) (amt : Nat) : AsyncBufReader :=
  let pos1 := min (st.pos + amt) st.cap
  if pos1 = st.cap then { st with pos := 0, cap := 0 }
  else { st with pos := pos1 }

/-- `Read::read` for `AsyncBufReader`: copy `min(dst.len(), self.len())`
octets out of the window, then `consume` them.  Returns the octets copied
and the new state. -/
def AsyncBufReader.readOut (st : AsyncBufReader) (dstLen : Nat) :
    List Nat × AsyncBufReader :=
  let n := min dstLen (st.cap - st.pos)
  ((st.buf.drop st.pos).take n, st.consume n)

/-! ## Helper lemmas -/

theorem readExact_append (xs r : List Nat) :
    readExact xs.length (xs ++ r) = .ok (xs, r) := by
  simp [readExact, List.take_left, List.drop_left]

theorem rrBind_eq {α β : Type} (x : RResult α) (f : α → RResult β) :
    x >>= f = x.bind f := rfl

theorem rrPure_eq {α : Type} (a : α) : (pure a : RResult α) = .ok a := rfl

theorem rrBind_ok {α β : Type} (a : α) (f : α → RResult β) :
    RResult.bind (.ok a) f = f a := rfl

theorem rrBind_err {α β : Type} (k : ErrorKind) (f : α → RResult β) :
    RResult.bind (.err k) f = .err k := rfl

theorem rrBind_crash {α β : Type} (f : α → RResult β) :
    RResult.bind (.crash) f = .crash := rfl

theorem readBE_three (a : Nat) :
    readBE [a / 65536 % 256, a / 256 % 256, a % 256] = a % 16777216 := by
  have h1 := @Nat.mod_mul 65536 256 a
  have h2 := @Nat.mod_mul 256 256 a
  simp only [readBE, List.foldl]
  omega

theorem readBE_four (a : Nat) :
    readBE [a / 16777216 % 256, a / 65536 % 256, a / 256 % 256, a % 256]
      = a % 4294967296 := by
  have h1 := @Nat.mod_mul 16777216 256 a
  have h2 := @Nat.mod_mul 65536 256 a
  have h3 := @Nat.mod_mul 256 256 a
  simp only [readBE, List.foldl]
  omega

theorem readBE_u24Bytes (a : Nat) : readBE (u24Bytes a) = a % 16777216 := by
  simpa [u24Bytes] using readBE_three a

theorem readBE_u32Bytes (a : Nat) : readBE (u32Bytes a) = a % 4294967296 := by
  simpa [u32Bytes] using readBE_four a

theorem testBit31_of_lt (v : Nat) (hv : v < 2147483648) :
    Nat.testBit v 31 = false :=
  Nat.testBit_lt_two_pow (by norm_num; omega)

theorem testBit31_add_two_pow (v : Nat) (hv : v < 2147483648) :
    Nat.testBit (2 ^ 31 + v) 31 = true := by
  rw [Nat.testBit_two_pow_add_eq, testBit31_of_lt v hv]
  rfl

theorem lor_high_bit (v : Nat) (hv : v < 2147483648) :
    Nat.lor v 2147483648 = v + 2147483648 := by
  apply Nat.eq_of_testBit_eq
  intro i
  show Nat.testBit (v ||| 2147483648) i = _
  rw [Nat.testBit_or,
      show (2147483648 : Nat) = 2 ^ 31 from by norm_num,
      show v + 2 ^ 31 = 2 ^ 31 + v from by omega]
  rcases lt_trichotomy i 31 with hi | hi | hi
  · have hne : 31 ≠ i := by omega
    rw [Nat.testBit_two_pow_add_gt hi, Nat.testBit_two_pow]
    simp [hne]
  · subst hi
    rw [Nat.testBit_two_pow_self, testBit31_add_two_pow v hv]
    simp
  · have hpow : (4294967296 : Nat) ≤ 2 ^ i := by
      calc (4294967296 : Nat) = 2 ^ 32 := by norm_num
      _ ≤ 2 ^ i := Nat.pow_le_pow_right (by norm_num) (by omega)
    have hv2 : Nat.testBit v i = false :=
      Nat.testBit_lt_two_pow (by omega)
    have hp : Nat.testBit (2 ^ 31) i = false :=
      Nat.testBit_two_pow_of_ne (by omega)
    have hs : Nat.testBit (2 ^ 31 + v) i = false :=
      Nat.testBit_lt_two_pow (by
        have : (2 : Nat) ^ 31 = 2147483648 := by norm_num
        omega)
    rw [hv2, hp, hs]
    rfl

theorem land_high_bit_of_lt (v : Nat) (hv : v < 2147483648) :
    Nat.land v 2147483648 = 0 := by
  show v &&& 2147483648 = 0
  rw [show (2147483648 : Nat) = 2 ^ 31 from by norm_num,
      Nat.and_two_pow, testBit31_of_lt v hv]
  rfl

theorem land_high_bit_add (v : Nat) (hv : v < 2147483648) :
    Nat.land (v + 2147483648) 2147483648 = 2147483648 := by
  show (v + 2147483648) &&& 2147483648 = 2147483648
  rw [show (2147483648 : Nat) = 2 ^ 31 from by norm_num,
      show v + 2 ^ 31 = 2 ^ 31 + v from by omega,
      Nat.and_two_pow, testBit31_add_two_pow v hv]
  norm_num

theorem flags_lt_256 {f : Nat} (hf : Nat.land f FLAGS_ALL = f) : f < 256 := by
  have h := @Nat.and_le_right f FLAGS_ALL
  rw [show f &&& FLAGS_ALL = Nat.land f FLAGS_ALL from rfl, hf] at h
  simp [FLAGS_ALL] at h
  omega

/-- Encoding a well-formed header and decoding the 9 octets yields the header
back; shared by the header and frame round-trip claims. -/
theorem header_roundtrip (h : FrameHeader) (rest : List Nat)
    (hlen : h.payload_len < 16777216) (ht : h.frame_type < 256)
    (hf : Nat.land h.flags FLAGS_ALL = h.flags)
    (hs : h.stream_id.val < 2147483648) :
    h.into_writer = .ok (u24Bytes h.payload_len ++ [h.frame_type, h.flags]
        ++ u32Bytes h.stream_id.val)
    ∧ FrameHeader.from_reader ((u24Bytes h.payload_len
        ++ [h.frame_type, h.flags] ++ u32Bytes h.stream_id.val) ++ rest)
      = .ok (h, rest) := by
  have hf256 : h.flags < 256 := flags_lt_256 hf
  constructor
  · simp [FrameHeader.into_writer, hlen, Nat.mod_eq_of_lt ht,
          Nat.mod_eq_of_lt hf256]
  · simp only [u24Bytes, u32Bytes, List.cons_append, List.nil_append,
      FrameHeader.from_reader]
    rw [readBE_three, readBE_four]
    simp only [fromBitsTruncate, hf, StreamId.fromWire,
      Nat.mod_eq_of_lt hlen,
      Nat.mod_eq_of_lt (show h.stream_id.val < 4294967296 by omega),
      Nat.mod_eq_of_lt hs]

/-! ## Claim theorems -/

/-- C2: the claim (and the spec's `fill_buf` algorithm) says that when `cap`
reaches the backing store's capacity the store is grown to
`readable_length + min(readable_length, 8192)` and the readable window is
copied to offset 0, after which filling continues.  The code instead aborts:
`new_buf.copy_from_slice(&self[..])` requires equal source and destination
lengths, and the new length differs from the window length whenever the
window is non-empty.  Evaluated here on a fresh reader whose source delivers
exactly 64 octets (an exact fill of the initial 64-octet store): the loop
repeats, enters the grow step, and aborts. -/
theorem c2_fill_buf_grow_aborts :
    AsyncBufReader.fill_buf ⟨List.replicate 64 0, 0, 0⟩
      [.chunk (List.replicate 64 1)] = .crash := by decide

/-- C3: the claim says a remainder of fewer than 3 octets yields `None` and a
remainder shorter than a whole frame yields `None` leaving the tail unread,
for every slice and cursor position.  With exactly 3 octets remaining the
code passes the `len() < 3` guard and then slices `&buf[..4]`, which is out
of range: it aborts instead of yielding `None`. -/
theorem c3_frame_iter_three_byte_abort :
    FrameIter.next ⟨[0, 0, 0], 0, 100⟩ = .crash := by decide

/-- C6: the claim (and the code's own comment, "Add one to the value to
obtain a weight between 1 and 256") says decode yields
`weight = weight_raw + 1` with range `1..=256`.  `weight` is a `u8`, so for
`weight_raw = 255` the addition `buf[4] + 1` overflows and aborts instead of
producing 256.  Evaluated on a valid 5-octet payload with `weight_raw =
255`. -/
theorem c6_priority_weight_overflow :
    PriorityFrame.read ⟨5, 2, 0, ⟨1⟩⟩ [0, 0, 0, 0, 255] = .crash := by decide

/-- C10: a Headers frame with `PADDED` set whose pad-length octet satisfies
`pad_len + 1 > payload_len` makes `payload_len -= pad_len + 1` underflow, so
`HeadersFrame::from_reader` aborts instead of returning an error.  Evaluated
at `payload_len = 1`, pad octet `5`. -/
theorem c10_headers_padding_underflow :
    HeadersFrame.from_reader ⟨1, 1, 8, ⟨1⟩⟩ [5] = .crash := by decide

/-- C1 counterexample: a Headers frame whose priority sub-record carries a
stream id (2) different from the frame's own stream id (1).  `write_frame`
succeeds — the sub-record's stream id is never written — and `read_frame`
accepts the octets, but the decoded value carries the frame's stream id in
the sub-record, so it differs from the original: `decode(encode(f)) ≠ f`
although the decoder accepted `encode(f)`. -/
theorem c1_priority_stream_id_not_roundtripped :
    write_frame (.Headers ⟨⟨1⟩, [], some ⟨⟨2⟩, false, ⟨0⟩, 16⟩, false, false⟩)
        = .ok [0, 0, 5, 1, 32, 0, 0, 0, 1, 0, 0, 0, 0, 15]
    ∧ read_frame [0, 0, 5, 1, 32, 0, 0, 0, 1, 0, 0, 0, 0, 15]
        = .ok (.Headers ⟨⟨1⟩, [], some ⟨⟨1⟩, false, ⟨0⟩, 16⟩, false, false⟩, [])
    ∧ FrameKind.Headers ⟨⟨1⟩, [], some ⟨⟨1⟩, false, ⟨0⟩, 16⟩, false, false⟩
        ≠ .Headers ⟨⟨1⟩, [], some ⟨⟨2⟩, false, ⟨0⟩, 16⟩, false, false⟩ := by
  refine ⟨by decide, by decide, by decide⟩

/-- C4 counterexample: a frame of unknown type `0xFF` whose wire flags octet
is `0x80` (an unknown flag bit).  `FrameHeader::from_reader` uses
`Flags::from_bits_truncate`, so the bit is dropped: the decoded Unknown
record has empty flags, and re-encoding writes a `0x00` flags octet — the
unknown flag bit is not retained and the round-trip is not exact. -/
theorem c4_unknown_flag_bits_dropped :
    read_frame [0, 0, 0, 255, 128, 0, 0, 0, 1]
        = .ok (.Unknown ⟨⟨1⟩, 0, 255, []⟩, [])
    ∧ write_frame (.Unknown ⟨⟨1⟩, 0, 255, []⟩) = .ok [0, 0, 0, 255, 0, 0, 0, 0, 1]
    ∧ ([0, 0, 0, 255, 0, 0, 0, 0, 1] : List Nat) ≠ [0, 0, 0, 255, 128, 0, 0, 0, 1] := by
  refine ⟨by decide, by decide, by decide⟩

/-- C7 counterexample: a Headers frame with the `PRIORITY` flag, stream id 1
and `payload_len = 10` (a 5-octet sub-record followed by a 5-octet
fragment).  The claim says the sub-record is consumed, 5 is subtracted, and
the remaining 5 octets become the fragment.  The code hands the *frame's*
header to the whole-frame Priority decoder, whose `payload_len != 5` check
fires: decode returns `FrameSize` instead of the claimed Headers record. -/
theorem c7_priority_subrecord_rejects_nonempty_fragment :
    HeadersFrame.from_reader ⟨10, 1, 0x20, ⟨1⟩⟩ [0, 0, 0, 0, 15, 1, 2, 3, 4, 5]
        = .err .FrameSize
    ∧ HeadersFrame.from_reader ⟨10, 1, 0x20, ⟨1⟩⟩ [0, 0, 0, 0, 15, 1, 2, 3, 4, 5]
        ≠ .ok (⟨⟨1⟩, [1, 2, 3, 4, 5], some ⟨⟨1⟩, false, ⟨0⟩, 16⟩, false, false⟩, []) := by
  refine ⟨by decide, by decide⟩

/-- C8: for every legal `FrameHeader` value (fields within their Rust types'
ranges, `payload_len ≤ 2^24 − 1`, stream id with bit 31 clear), decoding the
9 octets produced by `into_writer` yields the header back; and every header
produced by `from_reader` has the reserved bit of its stream id equal to 0,
i.e. its value below `2^31`. -/
theorem c8_header_roundtrip_reserved_bit (h : FrameHeader) (rest inp : List Nat)
    (h2 : FrameHeader) (r : List Nat) :
    (h.payload_len < 16777216 → h.frame_type < 256 →
      Nat.land h.flags FLAGS_ALL = h.flags → h.stream_id.val < 2147483648 →
      (h.into_writer.bind fun bytes => FrameHeader.from_reader (bytes ++ rest))
        = .ok (h, rest))
    ∧ (FrameHeader.from_reader inp = .ok (h2, r) →
        h2.stream_id.val < 2147483648) := by
  constructor
  · intro hlen ht hf hs
    obtain ⟨hw, hr⟩ := header_roundtrip h rest hlen ht hf hs
    rw [hw]
    exact hr
  · intro hr
    unfold FrameHeader.from_reader at hr
    split at hr
    · simp only [RResult.ok.injEq, Prod.mk.injEq] at hr
      obtain ⟨hh, -⟩ := hr
      rw [← hh]
      exact Nat.mod_lt _ (by norm_num)
    · cases hr

/-- Witness for C8: a concrete legal header round-trips through the codec
with trailing octets preserved, and a concrete wire header with the reserved
bit set decodes to a stream id with bit 31 clear. -/
theorem c8_header_roundtrip_reserved_bit_witness :
    ((3 : Nat) < 16777216 ∧ (255 : Nat) < 256 ∧ Nat.land 9 FLAGS_ALL = 9
      ∧ (5 : Nat) < 2147483648
      ∧ ((FrameHeader.into_writer ⟨3, 255, 9, ⟨5⟩⟩).bind
          fun bytes => FrameHeader.from_reader (bytes ++ [7, 7]))
        = .ok (⟨3, 255, 9, ⟨5⟩⟩, [7, 7]))
    ∧ (FrameHeader.from_reader [0, 0, 0, 0, 255, 255, 255, 255, 255]
        = .ok (⟨0, 0, 45, ⟨2147483647⟩⟩, [])
      ∧ (⟨0, 0, 45, ⟨2147483647⟩⟩ : FrameHeader).stream_id.val < 2147483648) := by
  refine ⟨⟨by decide, by decide, by decide, by decide, ?_⟩, ⟨by decide, ?_⟩⟩
  · exact (c8_header_roundtrip_reserved_bit ⟨3, 255, 9, ⟨5⟩⟩ [7, 7] [] ⟨0, 0, 0, ⟨0⟩⟩ []).1
      (by decide) (by decide) (by decide) (by decide)
  · exact (c8_header_roundtrip_reserved_bit ⟨0, 0, 0, ⟨0⟩⟩ []
        [0, 0, 0, 0, 255, 255, 255, 255, 255] ⟨0, 0, 45, ⟨2147483647⟩⟩ []).2
      (by decide)

/-! ## Spec-side reference for the Settings table (§4.4) -/

/-- The spec's Settings table, on one decoded `(id, value)` pair:
`ok (some s)` when recognized, `ok none` when silently discarded, `err` with
the kind the table demands on violation.  This definition follows the spec's
words, for comparison with `parse_payload`. -/
def specPairResult (id val : Nat) : RResult (Option Setting) :=
  match id with
  | 1 => .ok (some (.HeaderTableSize val))
  | 2 =>
    if val = 0 then .ok (some (.EnablePush false))
    else if val = 1 then .ok (some (.EnablePush true))
    else .err .Protocol
  | 3 => .ok (some (.MaxConcurrentStreams val))
  | 4 =>
    if val ≤ 2147483647 then .ok (some (.InitialWindowSize (val : Int)))
    else .err .FlowControl
  | 5 =>
    if 16384 ≤ val ∧ val ≤ 16777215 then .ok (some (.MaxFrameSize val))
    else .err .Protocol
  | 6 => .ok (some (.MaxHeaderListSize val))
  | _ => .ok none

/-- Spec-side: interpret the pairs in wire order; the first violation
determines the error, discarded pairs are dropped, recognized settings keep
wire order. -/
def specParseSettings : List (Nat × Nat) → RResult (List Setting)
  | [] => .ok []
  | (id, val) :: ps =>
    match specPairResult id val with
    | .ok (some s) => (specParseSettings ps).map (s :: ·)
    | .ok none => specParseSettings ps
    | .err k => .err k
    | .crash => .crash

/-- The 6-octet big-endian pair decomposition of a Settings payload. -/
def pairsOf : List Nat → List (Nat × Nat)
  | i1 :: i0 :: v3 :: v2 :: v1 :: v0 :: rest =>
      (readBE [i1, i0], readBE [v3, v2, v1, v0]) :: pairsOf rest
  | _ => []

/-- The pair loop of `parse_payload` computes exactly the spec's table. -/
theorem parsePairs_eq_spec : ∀ bs : List Nat,
    parsePairs bs = specParseSettings (pairsOf bs)
  | i1 :: i0 :: v3 :: v2 :: v1 :: v0 :: rest => by
    have ih := parsePairs_eq_spec rest
    simp only [parsePairs, pairsOf, specParseSettings]
    rcases hid : readBE [i1, i0] with _ | _ | _ | _ | _ | _ | _ | n
    · simp [specPairResult, ih]
    · simp [specPairResult, ih]
    · rcases hv : readBE [v3, v2, v1, v0] with _ | _ | m
      · simp [specPairResult, ih]
      · simp [specPairResult, ih]
      · simp [specPairResult, ih]
    · simp [specPairResult, ih]
    · by_cases hv : readBE [v3, v2, v1, v0] ≤ 2147483647
      · simp [specPairResult, MAX_FLOW_CONTROL_WINDOW_SIZE, hv, Nat.not_lt.mpr hv, ih]
      · simp [specPairResult, MAX_FLOW_CONTROL_WINDOW_SIZE, hv, Nat.lt_of_not_le hv, ih]
    · by_cases hv : 16384 ≤ readBE [v3, v2, v1, v0] ∧ readBE [v3, v2, v1, v0] ≤ 16777215
      · simp only [specPairResult, MIN_FRAME_SIZE, MAX_FRAME_SIZE, if_pos hv]
        have hcond : ¬(readBE [v3, v2, v1, v0] < 16384 ∨ 16777215 < readBE [v3, v2, v1, v0]) := by
          omega
        simp [hcond, ih]
      · simp only [specPairResult, MIN_FRAME_SIZE, MAX_FRAME_SIZE, if_neg hv]
        have hcond : readBE [v3, v2, v1, v0] < 16384 ∨ 16777215 < readBE [v3, v2, v1, v0] := by
          omega
        simp [hcond]
    · simp [specPairResult, ih]
    · simp [specPairResult, ih]
  | [] => rfl
  | [_] => rfl
  | [_, _] => rfl
  | [_, _, _] => rfl
  | [_, _, _, _] => rfl
  | [_, _, _, _, _] => rfl

/-- C5: `SettingsFrame::from_raw` classifies inputs as the spec's table says:
nonzero stream id → `Protocol`; ACK with nonzero `payload_len` → `FrameSize`;
`payload_len` not a multiple of 6 → `FrameSize`; otherwise the payload pairs
are interpreted in wire order by the spec's table (`specParseSettings`):
ENABLE_PUSH value ∉ {0,1} → `Protocol`, INITIAL_WINDOW_SIZE > 2^31 − 1 →
`FlowControl`, MAX_FRAME_SIZE outside [16384, 16777215] → `Protocol`, unknown
identifiers silently discarded, recognized settings returned in wire
order. -/
theorem c5_settings_classification (h : FrameHeader) (inp : List Nat) :
    (h.stream_id ≠ ⟨0⟩ → SettingsFrame.from_raw h inp = .err .Protocol)
    ∧ (h.stream_id = ⟨0⟩ → Nat.land h.flags FLAG_ACK ≠ 0 → h.payload_len ≠ 0 →
        SettingsFrame.from_raw h inp = .err .FrameSize)
    ∧ (h.stream_id = ⟨0⟩ → (Nat.land h.flags FLAG_ACK ≠ 0 → h.payload_len = 0) →
        h.payload_len ≤ inp.length → h.payload_len % 6 ≠ 0 →
        SettingsFrame.from_raw h inp = .err .FrameSize)
    ∧ (h.stream_id = ⟨0⟩ → (Nat.land h.flags FLAG_ACK ≠ 0 → h.payload_len = 0) →
        h.payload_len ≤ inp.length → h.payload_len % 6 = 0 →
        SettingsFrame.from_raw h inp
          = (specParseSettings (pairsOf (inp.take h.payload_len))).map
              (fun s => (⟨s, Nat.land h.flags FLAG_ACK != 0⟩, inp.drop h.payload_len))) := by
  refine ⟨?_, ?_, ?_, ?_⟩
  · intro hne
    simp [SettingsFrame.from_raw, hne]
  · intro hz hack hlen
    simp [SettingsFrame.from_raw, hz, bne_iff_ne, hack, hlen]
  · intro hz hack hle hmod
    have hackb : (Nat.land h.flags FLAG_ACK != 0 && (h.payload_len != 0)) = false := by
      by_cases ha : Nat.land h.flags FLAG_ACK = 0
      · simp [ha]
      · simp [hack ha]
    simp only [SettingsFrame.from_raw, hz, ne_eq, not_true_eq_false, if_false, hackb,
      Bool.false_eq_true, readExact, hle, if_true, if_pos hle]
    have htk : (inp.take h.payload_len).length = h.payload_len :=
      List.length_take_of_le hle
    simp [parse_payload, htk, hmod, RResult.bind]
  · intro hz hack hle hmod
    have hackb : (Nat.land h.flags FLAG_ACK != 0 && (h.payload_len != 0)) = false := by
      by_cases ha : Nat.land h.flags FLAG_ACK = 0
      · simp [ha]
      · simp [hack ha]
    have htk : (inp.take h.payload_len).length = h.payload_len :=
      List.length_take_of_le hle
    simp only [SettingsFrame.from_raw, hz, ne_eq, not_true_eq_false, if_false, hackb,
      Bool.false_eq_true, readExact, hle, if_pos hle]
    simp only [parse_payload, htk, List.length_take, Nat.min_eq_left hle, hmod,
      ne_eq, not_true_eq_false, if_false, parsePairs_eq_spec]
    have hmin : h.payload_len ⊓ inp.length = h.payload_len := min_eq_left hle
    cases hspec : specParseSettings (pairsOf (inp.take h.payload_len)) <;>
      simp [hspec, hmin, hmod, RResult.bind, RResult.map]

/-- Witness for C5: the ENABLE_PUSH scenario — stream id 0, no ACK, a single
`(0x2, 1)` pair — goes through the table branch of the theorem and decodes to
`EnablePush true`. -/
theorem c5_settings_classification_witness :
    (⟨6, 4, 0, ⟨0⟩⟩ : FrameHeader).stream_id = ⟨0⟩
    ∧ (6 : Nat) % 6 = 0
    ∧ SettingsFrame.from_raw ⟨6, 4, 0, ⟨0⟩⟩ [0, 2, 0, 0, 0, 1]
        = (specParseSettings (pairsOf ([0, 2, 0, 0, 0, 1].take 6))).map
            (fun s => (⟨s, Nat.land (0 : Nat) FLAG_ACK != 0⟩, [0, 2, 0, 0, 0, 1].drop 6))
    ∧ SettingsFrame.from_raw ⟨6, 4, 0, ⟨0⟩⟩ [0, 2, 0, 0, 0, 1]
        = .ok (⟨[.EnablePush true], false⟩, []) := by
  refine ⟨by decide, by decide, ?_, by decide⟩
  exact (c5_settings_classification ⟨6, 4, 0, ⟨0⟩⟩ [0, 2, 0, 0, 0, 1]).2.2.2
    (by decide) (by decide) (by decide) (by decide)

/-- Decoding a 9-octet wire header with arbitrary field values: the length is
reduced mod `2^24`, unknown flag bits are truncated, the stream id is reduced
mod `2^32` (four octets) and then bit 31 is cleared. -/
theorem from_reader_wire (n t fl w : Nat) (tail : List Nat) :
    FrameHeader.from_reader ((u24Bytes n ++ [t, fl] ++ u32Bytes w) ++ tail)
      = .ok (⟨n % 16777216, t, fromBitsTruncate fl,
              StreamId.fromWire (w % 4294967296)⟩, tail) := by
  simp only [u24Bytes, u32Bytes, List.cons_append, List.nil_append,
    FrameHeader.from_reader]
  rw [readBE_three, readBE_four]

/-- C4 (amended): for every frame whose type octet is not a recognized type,
decoding never fails on the unknown type alone: it yields an Unknown record
that preserves the type and payload and carries the stream id with the
reserved bit cleared and the wire flags octet masked to the known flag bits
(`Flags::from_bits_truncate` with mask `0x2D` — unknown flag bits are *not*
retained).  Re-encoding writes the masked flags and cleared stream id, so the
round-trip is octet-exact exactly when the wire flags octet had only known
bits and the reserved bit was clear. -/
theorem c4_unknown_type_preservation (t fl w : Nat) (payload rest : List Nat)
    (ht : t < 256) (ht1 : t ≠ TYPE_HEADERS) (ht2 : t ≠ TYPE_PRIORITY)
    (ht4 : t ≠ TYPE_SETTINGS) (hlen : payload.length < 16777216)
    (hw : w < 4294967296) :
    read_frame ((u24Bytes payload.length ++ [t, fl] ++ u32Bytes w)
        ++ (payload ++ rest))
      = .ok (.Unknown ⟨StreamId.fromWire w, fromBitsTruncate fl, t, payload⟩, rest)
    ∧ write_frame (.Unknown ⟨StreamId.fromWire w, fromBitsTruncate fl, t, payload⟩)
      = .ok (u24Bytes payload.length ++ [t, fromBitsTruncate fl]
          ++ u32Bytes (w % 2147483648) ++ payload)
    ∧ (fromBitsTruncate fl = fl → w < 2147483648 →
        write_frame (.Unknown ⟨StreamId.fromWire w, fromBitsTruncate fl, t, payload⟩)
          = .ok ((u24Bytes payload.length ++ [t, fl] ++ u32Bytes w) ++ payload)) := by
  have hmask256 : fromBitsTruncate fl < 256 := by
    have h := @Nat.and_le_right fl FLAGS_ALL
    rw [show fl &&& FLAGS_ALL = Nat.land fl FLAGS_ALL from rfl] at h
    simp only [fromBitsTruncate, FLAGS_ALL] at h ⊢
    omega
  have henc : write_frame (.Unknown ⟨StreamId.fromWire w, fromBitsTruncate fl, t, payload⟩)
      = .ok (u24Bytes payload.length ++ [t, fromBitsTruncate fl]
          ++ u32Bytes (w % 2147483648) ++ payload) := by
    simp [write_frame, FrameKind.header, FrameKind.into_writer,
      FrameHeader.into_writer, hlen, Nat.mod_eq_of_lt ht,
      Nat.mod_eq_of_lt hmask256, StreamId.fromWire, rrBind_eq, rrBind_ok,
      rrPure_eq, RResult.bind]
  refine ⟨?_, henc, ?_⟩
  · show read_frame_checked (2 ^ 64 - 1) _ = _
    unfold read_frame_checked
    rw [from_reader_wire]
    simp only [rrBind_eq, rrBind_ok, Nat.mod_eq_of_lt hlen, Nat.mod_eq_of_lt hw]
    rw [if_neg (show ¬ payload.length > 2 ^ 64 - 1 by omega),
        if_neg ht1, if_neg ht4, if_neg ht2]
    simp only [UnknownFrame.from_reader, readExact_append, rrBind_eq, rrBind_ok,
      rrPure_eq]
  · intro hfl hw31
    rw [henc, hfl, Nat.mod_eq_of_lt hw31]

/-- Witness for C4: type `0xFF`, wire flags `0x80`, stream-id word with the
reserved bit set, payload `[9]`, two trailing octets. -/
theorem c4_unknown_type_preservation_witness :
    (255 : Nat) ≠ TYPE_HEADERS ∧ fromBitsTruncate 128 = 0
    ∧ (read_frame ((u24Bytes 1 ++ [255, 128] ++ u32Bytes 2147483648) ++ ([9] ++ [4, 4]))
        = .ok (.Unknown ⟨StreamId.fromWire 2147483648, fromBitsTruncate 128, 255, [9]⟩, [4, 4])
      ∧ write_frame (.Unknown ⟨StreamId.fromWire 2147483648, fromBitsTruncate 128, 255, [9]⟩)
        = .ok (u24Bytes 1 ++ [255, fromBitsTruncate 128]
            ++ u32Bytes (2147483648 % 2147483648) ++ [9])
      ∧ (fromBitsTruncate 128 = 128 → 2147483648 < 2147483648 →
          write_frame (.Unknown ⟨StreamId.fromWire 2147483648, fromBitsTruncate 128, 255, [9]⟩)
            = .ok ((u24Bytes 1 ++ [255, 128] ++ u32Bytes 2147483648) ++ [9]))) := by
  refine ⟨by decide, by decide, ?_⟩
  exact c4_unknown_type_preservation 255 128 2147483648 [9] [4, 4]
    (by decide) (by decide) (by decide) (by decide) (by decide) (by decide)

/-- C7 (amended): Headers decode returns `Protocol` on stream id 0.
Otherwise, with `PADDED` set it reads one pad octet and subtracts
`pad_len + 1` from the remaining length, takes the remaining octets as the
fragment and skips exactly `pad_len` trailing octets, leaving octets past the
frame's end readable.  With `PRIORITY` set the sub-record is parsed by the
*whole-frame* Priority decoder, which additionally requires the frame
header's `payload_len` to be exactly 5 (otherwise decode returns
`FrameSize`); when it is 5, the 5-octet sub-record is consumed, 5 is
subtracted, and the fragment is empty. -/
theorem c7_headers_decode (h : FrameHeader) (inp : List Nat)
    (b b0 b1 b2 b3 b4 : Nat) (rest : List Nat) :
    (h.stream_id = ⟨0⟩ → HeadersFrame.from_reader h inp = .err .Protocol)
    ∧ (h.stream_id ≠ ⟨0⟩ → flagsContain h.flags FLAG_PADDED = false →
        flagsContain h.flags FLAG_PRIORITY = false → h.payload_len ≤ inp.length →
        HeadersFrame.from_reader h inp
          = .ok (⟨h.stream_id, inp.take h.payload_len, none,
                  flagsContain h.flags FLAG_END_HEADERS,
                  flagsContain h.flags FLAG_END_STREAM⟩, inp.drop h.payload_len))
    ∧ (h.stream_id ≠ ⟨0⟩ → flagsContain h.flags FLAG_PADDED = true →
        flagsContain h.flags FLAG_PRIORITY = false →
        b + 1 ≤ h.payload_len → h.payload_len - 1 ≤ rest.length →
        HeadersFrame.from_reader h (b :: rest)
          = .ok (⟨h.stream_id, rest.take (h.payload_len - (b + 1)), none,
                  flagsContain h.flags FLAG_END_HEADERS,
                  flagsContain h.flags FLAG_END_STREAM⟩,
                 rest.drop (h.payload_len - 1)))
    ∧ (h.stream_id ≠ ⟨0⟩ → flagsContain h.flags FLAG_PADDED = false →
        flagsContain h.flags FLAG_PRIORITY = true → h.payload_len ≠ 5 →
        HeadersFrame.from_reader h inp = .err .FrameSize)
    ∧ (h.stream_id ≠ ⟨0⟩ → flagsContain h.flags FLAG_PADDED = false →
        flagsContain h.flags FLAG_PRIORITY = true → h.payload_len = 5 →
        b4 + 1 < 256 →
        HeadersFrame.from_reader h (b0 :: b1 :: b2 :: b3 :: b4 :: rest)
          = .ok (⟨h.stream_id, [],
                  some ⟨h.stream_id,
                        Nat.land (readBE [b0, b1, b2, b3]) 0x80000000 != 0,
                        StreamId.fromWire (readBE [b0, b1, b2, b3]), b4 + 1⟩,
                  flagsContain h.flags FLAG_END_HEADERS,
                  flagsContain h.flags FLAG_END_STREAM⟩, rest)) := by
  refine ⟨?_, ?_, ?_, ?_, ?_⟩
  · intro hz
    simp [HeadersFrame.from_reader, hz]
  · intro hne hpad hpri hle
    simp [HeadersFrame.from_reader, hne, hpad, hpri, readExact, hle,
      rrBind_eq, rrBind_ok, rrPure_eq, RResult.bind]
  · intro hne hpad hpri hsub hlen
    have hk1 : h.payload_len - (b + 1) ≤ rest.length := by omega
    have hk2 : b ≤ rest.length - (h.payload_len - (b + 1)) := by omega
    have harith : b + (h.payload_len - (b + 1)) = h.payload_len - 1 := by omega
    have harith2 : h.payload_len - (b + 1) + b = h.payload_len - 1 := by omega
    simp [HeadersFrame.from_reader, hne, hpad, hpri, checkedSub, hsub,
      readExact, hk1, hk2, rrBind_eq, rrBind_ok, rrPure_eq, RResult.bind,
      List.drop_drop, harith, harith2]
  · intro hne hpad hpri hlen
    simp [HeadersFrame.from_reader, hne, hpad, hpri, PriorityFrame.read,
      PRIORITY_PAYLOAD_LENGTH, hlen,
      rrBind_eq, rrBind_ok, rrBind_err, rrPure_eq, RResult.bind]
  · intro hne hpad hpri hlen hb4
    have hb4n : ¬ 255 ≤ b4 := by omega
    simp [HeadersFrame.from_reader, hne, hpad, hpri, PriorityFrame.read,
      PRIORITY_PAYLOAD_LENGTH, hlen, hb4n, checkedSub, readExact,
      rrBind_eq, rrBind_ok, rrPure_eq, RResult.bind]

/-- Witness for C7: the spec's scenario 7 — `PADDED` Headers, stream id 1,
`payload_len = 8`, pad octet 3, fragment `[0,1,2,3]`, three padding octets —
decodes through the padded branch of the theorem and leaves the four octets
past the frame's end readable. -/
theorem c7_headers_decode_witness :
    (⟨8, 1, 8, ⟨1⟩⟩ : FrameHeader).stream_id ≠ ⟨0⟩
    ∧ flagsContain 8 FLAG_PADDED = true
    ∧ flagsContain 8 FLAG_PRIORITY = false
    ∧ HeadersFrame.from_reader ⟨8, 1, 8, ⟨1⟩⟩
        (3 :: [0, 1, 2, 3, 255, 255, 255, 4, 4, 4, 4])
      = .ok (⟨⟨1⟩, [0, 1, 2, 3, 255, 255, 255, 4, 4, 4, 4].take (8 - (3 + 1)), none,
              flagsContain 8 FLAG_END_HEADERS, flagsContain 8 FLAG_END_STREAM⟩,
             [0, 1, 2, 3, 255, 255, 255, 4, 4, 4, 4].drop (8 - 1)) := by
  refine ⟨by decide, by decide, by decide, ?_⟩
  exact (c7_headers_decode ⟨8, 1, 8, ⟨1⟩⟩ [] 3 0 0 0 0 0
      [0, 1, 2, 3, 255, 255, 255, 4, 4, 4, 4]).2.2.1
    (by decide) (by decide) (by decide) (by decide) (by decide)

/-! ## Buffer invariants (C9) -/

/-- The spec's buffer invariant `0 ≤ pos ≤ cap ≤ capacity`. -/
def bufInv (st : AsyncBufReader) : Prop :=
  st.pos ≤ st.cap ∧ st.cap ≤ st.buf.length

/-- The grow step never changes `pos` or `cap` when it succeeds. -/
theorem growStep_ok_cursors (st st1 : AsyncBufReader)
    (hg : st.growStep = .ok st1) : st1.pos = st.pos ∧ st1.cap = st.cap := by
  unfold AsyncBufReader.growStep at hg
  split at hg
  · split at hg
    · cases hg
    · split at hg
      · cases hg
        exact ⟨rfl, rfl⟩
      · cases hg
  · cases hg
    exact ⟨rfl, rfl⟩

/-- When the fill loop returns (no abort, no I/O failure), the buffer
invariant is preserved and `pos` is untouched. -/
theorem fillLoop_ok_props : ∀ (src : List ReadResp) (st st2 : AsyncBufReader)
    (src2 : List ReadResp), bufInv st →
    AsyncBufReader.fillLoop st src = .ok (st2, src2) →
    bufInv st2 ∧ st2.pos = st.pos := by
  intro src
  induction src with
  | nil =>
    intro st st2 src2 hinv hrun
    unfold AsyncBufReader.fillLoop at hrun
    cases hg : st.growStep with
    | ok st1 =>
      rw [hg, rrBind_ok] at hrun
      obtain ⟨hp, hc⟩ := growStep_ok_cursors st st1 hg
      split at hrun
      · cases hrun
      · split at hrun
        · cases hrun
          refine ⟨⟨?_, ?_⟩, hp⟩
          · rw [hp, hc]
            exact hinv.1
          · omega
        · cases hrun
    | err k => rw [hg, rrBind_err] at hrun; cases hrun
    | crash => rw [hg, rrBind_crash] at hrun; cases hrun
  | cons r src ih =>
    intro st st2 src2 hinv hrun
    cases r with
    | ioFail =>
      unfold AsyncBufReader.fillLoop at hrun
      cases hg : st.growStep with
      | ok st1 =>
        rw [hg, rrBind_ok] at hrun
        split at hrun
        · cases hrun
        · cases hrun
      | err k => rw [hg, rrBind_err] at hrun; cases hrun
      | crash => rw [hg, rrBind_crash] at hrun; cases hrun
    | wouldBlock =>
      unfold AsyncBufReader.fillLoop at hrun
      cases hg : st.growStep with
      | ok st1 =>
        rw [hg, rrBind_ok] at hrun
        obtain ⟨hp, hc⟩ := growStep_ok_cursors st st1 hg
        split at hrun
        · cases hrun
        · rename_i hle
          have hinvSt1 : bufInv st1 := by
            refine ⟨?_, by omega⟩
            rw [hp, hc]
            exact hinv.1
          split at hrun
          · cases hrun
            exact ⟨hinvSt1, hp⟩
          · have hrec := ih st1 st2 src2 hinvSt1 hrun
            exact ⟨hrec.1, by rw [hrec.2, hp]⟩
      | err k => rw [hg, rrBind_err] at hrun; cases hrun
      | crash => rw [hg, rrBind_crash] at hrun; cases hrun
    | chunk bs =>
      unfold AsyncBufReader.fillLoop at hrun
      cases hg : st.growStep with
      | ok st1 =>
        rw [hg, rrBind_ok] at hrun
        obtain ⟨hp, hc⟩ := growStep_ok_cursors st st1 hg
        split at hrun
        · cases hrun
        · rename_i hle
          have hinvSt1 : bufInv st1 := by
            refine ⟨?_, by omega⟩
            rw [hp, hc]
            exact hinv.1
          have hdlen : (bs.take (st1.buf.length - st1.cap)).length
              ≤ st1.buf.length - st1.cap := by simp
          have hw : bufInv (st1.writeAt (bs.take (st1.buf.length - st1.cap))) := by
            have h1 := hinvSt1.1
            have h2 := hinvSt1.2
            unfold AsyncBufReader.writeAt
            constructor
            · simp only
              omega
            · simp only [List.length_append, List.length_take, List.length_drop]
              omega
          split at hrun
          · cases hrun
            exact ⟨hw, hp⟩
          · have hrec := ih _ st2 src2 hw hrun
            refine ⟨hrec.1, ?_⟩
            rw [hrec.2]
            exact hp
      | err k => rw [hg, rrBind_err] at hrun; cases hrun
      | crash => rw [hg, rrBind_crash] at hrun; cases hrun

/-- C9: the reader starts with the invariant `pos ≤ cap ≤ capacity`;
`consume` and `read` preserve it, and `fill_buf` preserves it whenever it
returns.  `consume(n)` advances `pos` by `min(n, cap − pos)` and resets both
cursors to 0 exactly when `pos` reaches `cap`; in particular draining the
whole readable window resets `(pos, cap)` to `(0, 0)`, and a fill that starts
from the reset state keeps `pos = 0` and returns the window starting at
offset 0 of the backing store. -/
theorem c9_buffer_invariant (st st2 : AsyncBufReader) (n : Nat)
    (src src2 : List ReadResp) (w : List Nat) :
    bufInv AsyncBufReader.new
    ∧ (bufInv st → bufInv (st.consume n))
    ∧ (bufInv st → st.consume n =
        if st.pos + min n (st.cap - st.pos) = st.cap then ⟨st.buf, 0, 0⟩
        else ⟨st.buf, st.pos + min n (st.cap - st.pos), st.cap⟩)
    ∧ (bufInv st → bufInv (st.readOut n).2)
    ∧ (bufInv st → st.fill_buf src = .ok (w, st2, src2) → bufInv st2)
    ∧ (bufInv st → st.consume (st.cap - st.pos) = ⟨st.buf, 0, 0⟩)
    ∧ (st.pos = 0 → st.cap = 0 → st.fill_buf src = .ok (w, st2, src2) →
        st2.pos = 0 ∧ w = st2.buf.take st2.cap) := by
  have hchar : ∀ (m : Nat), bufInv st → st.consume m =
      if st.pos + min m (st.cap - st.pos) = st.cap then ⟨st.buf, 0, 0⟩
      else ⟨st.buf, st.pos + min m (st.cap - st.pos), st.cap⟩ := by
    intro m hinv
    have hmin : min (st.pos + m) st.cap = st.pos + min m (st.cap - st.pos) := by
      rcases hinv with ⟨h1, h2⟩
      omega
    unfold AsyncBufReader.consume
    rw [hmin]
  have hconsInv : ∀ (m : Nat), bufInv st → bufInv (st.consume m) := by
    intro m hinv
    rw [hchar m hinv]
    rcases hinv with ⟨h1, h2⟩
    split
    · exact ⟨Nat.le_refl 0, Nat.zero_le _⟩
    · refine ⟨?_, ?_⟩
      · show st.pos + min m (st.cap - st.pos) ≤ st.cap
        omega
      · exact h2
  have hfill : bufInv st → st.fill_buf src = .ok (w, st2, src2) → bufInv st2 := by
    intro hinv hrun
    unfold AsyncBufReader.fill_buf at hrun
    cases hl : st.fillLoop src with
    | ok p =>
      rw [hl] at hrun
      cases hrun
      exact (fillLoop_ok_props src st p.1 p.2 hinv hl).1
    | err k => rw [hl] at hrun; cases hrun
    | crash => rw [hl] at hrun; cases hrun
  refine ⟨⟨Nat.le_refl 0, Nat.zero_le _⟩,
    hconsInv n, hchar n, ?_, hfill, ?_, ?_⟩
  · intro hinv
    exact hconsInv (min n (st.cap - st.pos)) hinv
  · intro hinv
    rw [hchar _ hinv]
    rcases hinv with ⟨h1, h2⟩
    rw [if_pos (by omega)]
  · intro hp hc hrun
    unfold AsyncBufReader.fill_buf at hrun
    cases hl : st.fillLoop src with
    | ok p =>
      rw [hl] at hrun
      cases hrun
      have hprops := fillLoop_ok_props src st p.1 p.2 ⟨by omega, by omega⟩ hl
      have hp2 : p.1.pos = 0 := by rw [hprops.2, hp]
      refine ⟨hp2, ?_⟩
      rw [hp2]
      simp
    | err k => rw [hl] at hrun; cases hrun
    | crash => rw [hl] at hrun; cases hrun

/-- Witness for C9: a concrete state with `pos = 2`, `cap = 5` in an 8-octet
store; consuming 3 octets drains the window and resets the cursors, and a
fill from the reset state returns the two delivered octets at offset 0. -/
theorem c9_buffer_invariant_witness :
    bufInv ⟨[1, 2, 3, 4, 5, 6, 7, 8], 2, 5⟩
    ∧ AsyncBufReader.consume ⟨[1, 2, 3, 4, 5, 6, 7, 8], 2, 5⟩ 3
        = ⟨[1, 2, 3, 4, 5, 6, 7, 8], 0, 0⟩
    ∧ AsyncBufReader.fill_buf ⟨[1, 2, 3, 4, 5, 6, 7, 8], 0, 0⟩ [.chunk [9, 9]]
        = .ok ([9, 9], ⟨[9, 9, 3, 4, 5, 6, 7, 8], 0, 2⟩, [])
    ∧ bufInv ⟨[9, 9, 3, 4, 5, 6, 7, 8], 0, 2⟩ := by
  refine ⟨by constructor <;> decide, ?_, by decide, ?_⟩
  · have h := (c9_buffer_invariant ⟨[1, 2, 3, 4, 5, 6, 7, 8], 2, 5⟩
        ⟨[], 0, 0⟩ 0 [] [] []).2.2.2.2.2.1 ⟨by decide, by decide⟩
    simpa using h
  · exact (c9_buffer_invariant ⟨[1, 2, 3, 4, 5, 6, 7, 8], 0, 0⟩
        ⟨[9, 9, 3, 4, 5, 6, 7, 8], 0, 2⟩ 0 [.chunk [9, 9]] [] [9, 9]).2.2.2.2.1
      ⟨by decide, by decide⟩ (by decide)

/-! ## Frame round-trip (C1) -/

/-- The Rust type ranges of a `StreamId` value (31-bit invariant). -/
def wfStreamId (s : StreamId) : Prop := s.val < 2147483648

/-- The Rust type ranges of a `Setting` value (`u32` / `i32` fields). -/
def wfSetting : Setting → Prop
  | .HeaderTableSize v => v < 4294967296
  | .EnablePush _ => True
  | .MaxConcurrentStreams v => v < 4294967296
  | .InitialWindowSize v => -2147483648 ≤ v ∧ v < 2147483648
  | .MaxFrameSize v => v < 4294967296
  | .MaxHeaderListSize v => v < 4294967296

/-- The Rust type ranges of a `PriorityFrame` (`u8` weight, 31-bit ids). -/
def wfPriority (p : PriorityFrame) : Prop :=
  wfStreamId p.stream_id ∧ wfStreamId p.dependency ∧ p.weight < 256

/-- The Rust type ranges of a `FrameKind` value: every field fits the type
it has in the source (`u8`, `u32`, `i32`, `Flags`, 31-bit `StreamId`). -/
def wfFrame : FrameKind → Prop
  | .Headers f => wfStreamId f.stream_id ∧ ∀ p ∈ f.priority, wfPriority p
  | .Priority f => wfPriority f
  | .Settings f => ∀ x ∈ f.settings, wfSetting x
  | .Unknown f => wfStreamId f.stream_id ∧ f.frame_type < 256
      ∧ Nat.land f.flags FLAGS_ALL = f.flags

/-- A Headers frame's priority sub-record (if any) carries the frame's own
stream id — the wire format has no field for a different one. -/
def priorityCoherent : FrameKind → Prop
  | .Headers f => ∀ p ∈ f.priority, p.stream_id = f.stream_id
  | _ => True

/-- An Unknown record's type octet is not one of the recognized types (else
the decoder would produce the recognized variant instead). -/
def unknownTypeUnrecognized : FrameKind → Prop
  | .Unknown f => f.frame_type ≠ TYPE_HEADERS ∧ f.frame_type ≠ TYPE_PRIORITY
      ∧ f.frame_type ≠ TYPE_SETTINGS
  | _ => True

theorem wireBytes_HeaderTableSize (v : Nat) :
    (Setting.HeaderTableSize v).wireBytes = 0 :: 1 :: u32Bytes v := by
  norm_num [Setting.wireBytes, Setting.wire, u16Bytes]

theorem wireBytes_EnablePush (b : Bool) :
    (Setting.EnablePush b).wireBytes
      = 0 :: 2 :: u32Bytes (if b then 1 else 0) := by
  norm_num [Setting.wireBytes, Setting.wire, u16Bytes]

theorem wireBytes_MaxConcurrentStreams (v : Nat) :
    (Setting.MaxConcurrentStreams v).wireBytes = 0 :: 3 :: u32Bytes v := by
  norm_num [Setting.wireBytes, Setting.wire, u16Bytes]

theorem wireBytes_InitialWindowSize (v : Int) :
    (Setting.InitialWindowSize v).wireBytes = 0 :: 4 :: u32Bytes (u32OfI32 v) := by
  norm_num [Setting.wireBytes, Setting.wire, u16Bytes]

theorem wireBytes_MaxFrameSize (v : Nat) :
    (Setting.MaxFrameSize v).wireBytes = 0 :: 5 :: u32Bytes v := by
  norm_num [Setting.wireBytes, Setting.wire, u16Bytes]

theorem wireBytes_MaxHeaderListSize (v : Nat) :
    (Setting.MaxHeaderListSize v).wireBytes = 0 :: 6 :: u32Bytes v := by
  norm_num [Setting.wireBytes, Setting.wire, u16Bytes]

theorem wireBytes_length (s : Setting) : s.wireBytes.length = 6 := by
  cases s <;> simp [Setting.wireBytes, u16Bytes, u32Bytes]

/-- The settings payload encoder emits `6 * #settings` octets. -/
theorem write_payload_length (ss : List Setting) :
    ((ss.map Setting.wireBytes).flatten).length = 6 * ss.length := by
  induction ss with
  | nil => simp
  | cons x xs ih =>
    simp [ih, wireBytes_length]
    omega

/-- If the pair loop accepts a payload produced by the settings encoder, it
returns exactly the encoded settings list. -/
theorem parsePairs_wireBytes : ∀ (ss : List Setting),
    (∀ x ∈ ss, wfSetting x) → ∀ ts : List Setting,
    parsePairs ((ss.map Setting.wireBytes).flatten) = .ok ts → ts = ss := by
  intro ss
  induction ss with
  | nil =>
    intro _ ts h
    simp [parsePairs] at h
    exact h
  | cons x xs ih =>
    intro hwf ts h
    have hwfx : wfSetting x := hwf x (List.mem_cons_self x xs)
    have hwfxs : ∀ y ∈ xs, wfSetting y := fun y hy => hwf y (List.mem_cons_of_mem x hy)
    simp only [List.map_cons, List.flatten_cons] at h
    cases x with
    | HeaderTableSize v =>
      rw [wireBytes_HeaderTableSize] at h
      simp only [u32Bytes, List.cons_append, parsePairs] at h
      rw [readBE_four] at h
      rw [Nat.mod_eq_of_lt hwfx] at h
      norm_num [readBE] at h
      cases hrec : parsePairs ((xs.map Setting.wireBytes).flatten) with
      | ok ts2 =>
        rw [hrec] at h
        simp [RResult.map] at h
        rw [← h, ih hwfxs ts2 hrec]
      | err k => rw [hrec] at h; simp [RResult.map] at h
      | crash => rw [hrec] at h; simp [RResult.map] at h
    | EnablePush b =>
      rw [wireBytes_EnablePush] at h
      simp only [u32Bytes, List.cons_append, parsePairs] at h
      rw [readBE_four] at h
      cases b with
      | false =>
        norm_num [readBE] at h
        cases hrec : parsePairs ((xs.map Setting.wireBytes).flatten) with
        | ok ts2 =>
          rw [hrec] at h
          simp [RResult.map] at h
          rw [← h, ih hwfxs ts2 hrec]
        | err k => rw [hrec] at h; simp [RResult.map] at h
        | crash => rw [hrec] at h; simp [RResult.map] at h
      | true =>
        norm_num [readBE] at h
        cases hrec : parsePairs ((xs.map Setting.wireBytes).flatten) with
        | ok ts2 =>
          rw [hrec] at h
          simp [RResult.map] at h
          rw [← h, ih hwfxs ts2 hrec]
        | err k => rw [hrec] at h; simp [RResult.map] at h
        | crash => rw [hrec] at h; simp [RResult.map] at h
    | MaxConcurrentStreams v =>
      rw [wireBytes_MaxConcurrentStreams] at h
      simp only [u32Bytes, List.cons_append, parsePairs] at h
      rw [readBE_four] at h
      rw [Nat.mod_eq_of_lt hwfx] at h
      norm_num [readBE] at h
      cases hrec : parsePairs ((xs.map Setting.wireBytes).flatten) with
      | ok ts2 =>
        rw [hrec] at h
        simp [RResult.map] at h
        rw [← h, ih hwfxs ts2 hrec]
      | err k => rw [hrec] at h; simp [RResult.map] at h
      | crash => rw [hrec] at h; simp [RResult.map] at h
    | InitialWindowSize v =>
      simp only [wfSetting] at hwfx
      rw [wireBytes_InitialWindowSize] at h
      simp only [u32Bytes, List.cons_append, parsePairs] at h
      rw [readBE_four] at h
      have hu32 : u32OfI32 v < 4294967296 := by
        unfold u32OfI32
        omega
      rw [Nat.mod_eq_of_lt hu32] at h
      norm_num [readBE] at h
      by_cases hv : (0 : Int) ≤ v
      · have hle : ¬ MAX_FLOW_CONTROL_WINDOW_SIZE < u32OfI32 v := by
          unfold MAX_FLOW_CONTROL_WINDOW_SIZE u32OfI32
          omega
        rw [if_neg hle] at h
        cases hrec : parsePairs ((xs.map Setting.wireBytes).flatten) with
        | ok ts2 =>
          rw [hrec] at h
          simp [RResult.map] at h
          rw [← h, ih hwfxs ts2 hrec]
          have hcast : ((u32OfI32 v : Nat) : Int) = v := by
            unfold u32OfI32
            omega
          rw [hcast]
        | err k => rw [hrec] at h; simp [RResult.map] at h
        | crash => rw [hrec] at h; simp [RResult.map] at h
      · have hgt : MAX_FLOW_CONTROL_WINDOW_SIZE < u32OfI32 v := by
          unfold MAX_FLOW_CONTROL_WINDOW_SIZE u32OfI32
          omega
        rw [if_pos hgt] at h
        cases h
    | MaxFrameSize v =>
      rw [wireBytes_MaxFrameSize] at h
      simp only [u32Bytes, List.cons_append, parsePairs] at h
      rw [readBE_four] at h
      rw [Nat.mod_eq_of_lt hwfx] at h
      norm_num [readBE] at h
      by_cases hr2 : v < MIN_FRAME_SIZE ∨ v > MAX_FRAME_SIZE
      · rw [if_pos hr2] at h
        cases h
      · rw [if_neg hr2] at h
        cases hrec : parsePairs ((xs.map Setting.wireBytes).flatten) with
        | ok ts2 =>
          rw [hrec] at h
          simp [RResult.map] at h
          rw [← h, ih hwfxs ts2 hrec]
        | err k => rw [hrec] at h; simp [RResult.map] at h
        | crash => rw [hrec] at h; simp [RResult.map] at h
    | MaxHeaderListSize v =>
      rw [wireBytes_MaxHeaderListSize] at h
      simp only [u32Bytes, List.cons_append, parsePairs] at h
      rw [readBE_four] at h
      rw [Nat.mod_eq_of_lt hwfx] at h
      norm_num [readBE] at h
      cases hrec : parsePairs ((xs.map Setting.wireBytes).flatten) with
      | ok ts2 =>
        rw [hrec] at h
        simp [RResult.map] at h
        rw [← h, ih hwfxs ts2 hrec]
      | err k => rw [hrec] at h; simp [RResult.map] at h
      | crash => rw [hrec] at h; simp [RResult.map] at h

/-- `write_payload` succeeds whenever the weight is nonzero, emitting the
dependency word (with the exclusive bit or-ed in) and `weight - 1`. -/
theorem write_payload_eq (p : PriorityFrame) (hweight : p.weight ≠ 0) :
    p.write_payload
      = .ok (u32Bytes (if p.exclusive then Nat.lor p.dependency.val 2147483648
                       else p.dependency.val) ++ [(p.weight - 1) % 256]) := by
  simp [PriorityFrame.write_payload, hweight]

/-- Decoding the 5 octets emitted by `write_payload` under a header with
`payload_len = 5` and a nonzero stream id recovers the record, with the
stream id taken from the header. -/
theorem priority_payload_read (p : PriorityFrame) (h : FrameHeader)
    (rest : List Nat) (hwf : wfPriority p) (hweight : 1 ≤ p.weight)
    (hsid : h.stream_id ≠ ⟨0⟩) (hplen : h.payload_len = 5) :
    PriorityFrame.read h
      (u32Bytes (if p.exclusive then Nat.lor p.dependency.val 2147483648
                 else p.dependency.val) ++ [(p.weight - 1) % 256] ++ rest)
      = .ok (⟨h.stream_id, p.exclusive, p.dependency, p.weight⟩, rest) := by
  obtain ⟨hs, hd, hwt⟩ := hwf
  simp only [wfStreamId] at hs hd
  have hw1 : (p.weight - 1) % 256 = p.weight - 1 := Nat.mod_eq_of_lt (by omega)
  have hnocrash : ¬ (p.weight - 1 + 1 ≥ 256) := by omega
  have hwplus : p.weight - 1 + 1 = p.weight := by omega
  cases hex : p.exclusive with
  | true =>
    rw [lor_high_bit _ hd]
    unfold PriorityFrame.read
    rw [if_neg hsid, hplen]
    have hdlt : p.dependency.val + 2147483648 < 4294967296 := by omega
    simp only [u32Bytes, List.cons_append, List.nil_append,
      PRIORITY_PAYLOAD_LENGTH, hw1, if_true]
    rw [if_neg (by omega)]
    rw [readBE_four]
    rw [Nat.mod_eq_of_lt hdlt]
    rw [if_neg hnocrash]
    rw [land_high_bit_add _ hd]
    simp only [StreamId.fromWire, Nat.add_mod_right, Nat.mod_eq_of_lt hd,
      hwplus]
    norm_num
  | false =>
    unfold PriorityFrame.read
    rw [if_neg hsid, hplen]
    have hdlt : p.dependency.val < 4294967296 := by omega
    simp only [u32Bytes, List.cons_append, List.nil_append,
      PRIORITY_PAYLOAD_LENGTH, hw1, Bool.false_eq_true, if_false]
    rw [if_neg (by omega)]
    rw [readBE_four]
    rw [Nat.mod_eq_of_lt hdlt]
    rw [if_neg hnocrash]
    rw [land_high_bit_of_lt _ hd]
    simp only [StreamId.fromWire, Nat.mod_eq_of_lt hd, hwplus]
    norm_num

theorem flagBits_mask (f : HeadersFrame) :
    fromBitsTruncate f.flagBits = f.flagBits := by
  rcases f with ⟨s, fr, pri, eh, es⟩
  cases pri <;> cases eh <;> cases es <;>
    simp [HeadersFrame.flagBits, fromBitsTruncate, flagsContain, FLAGS_ALL,
      FLAG_END_HEADERS, FLAG_END_STREAM, FLAG_PRIORITY, FLAG_PADDED] <;> decide

theorem flagBits_lt (f : HeadersFrame) : f.flagBits < 256 := by
  rcases f with ⟨s, fr, pri, eh, es⟩
  cases pri <;> cases eh <;> cases es <;>
    simp [HeadersFrame.flagBits, fromBitsTruncate, flagsContain, FLAGS_ALL,
      FLAG_END_HEADERS, FLAG_END_STREAM, FLAG_PRIORITY, FLAG_PADDED] <;> decide

theorem flagBits_padded (f : HeadersFrame) :
    flagsContain f.flagBits FLAG_PADDED = false := by
  rcases f with ⟨s, fr, pri, eh, es⟩
  cases pri <;> cases eh <;> cases es <;>
    simp [HeadersFrame.flagBits, fromBitsTruncate, flagsContain, FLAGS_ALL,
      FLAG_END_HEADERS, FLAG_END_STREAM, FLAG_PRIORITY, FLAG_PADDED]

theorem flagBits_priority (f : HeadersFrame) :
    flagsContain f.flagBits FLAG_PRIORITY = f.priority.isSome := by
  rcases f with ⟨s, fr, pri, eh, es⟩
  cases pri <;> cases eh <;> cases es <;>
    simp [HeadersFrame.flagBits, fromBitsTruncate, flagsContain, FLAGS_ALL,
      FLAG_END_HEADERS, FLAG_END_STREAM, FLAG_PRIORITY, FLAG_PADDED] <;> decide

theorem flagBits_end_headers (f : HeadersFrame) :
    flagsContain f.flagBits FLAG_END_HEADERS = f.end_headers := by
  rcases f with ⟨s, fr, pri, eh, es⟩
  cases pri <;> cases eh <;> cases es <;>
    simp [HeadersFrame.flagBits, fromBitsTruncate, flagsContain, FLAGS_ALL,
      FLAG_END_HEADERS, FLAG_END_STREAM, FLAG_PRIORITY, FLAG_PADDED] <;> decide

theorem flagBits_end_stream (f : HeadersFrame) :
    flagsContain f.flagBits FLAG_END_STREAM = f.end_stream := by
  rcases f with ⟨s, fr, pri, eh, es⟩
  cases pri <;> cases eh <;> cases es <;>
    simp [HeadersFrame.flagBits, fromBitsTruncate, flagsContain, FLAGS_ALL,
      FLAG_END_HEADERS, FLAG_END_STREAM, FLAG_PRIORITY, FLAG_PADDED] <;> decide

/-- Clearing the reserved bit of an in-range stream id is the identity. -/
theorem fromWire_mod_self (s : StreamId) (hs : wfStreamId s) :
    StreamId.fromWire (s.val % 4294967296) = s := by
  simp only [wfStreamId] at hs
  unfold StreamId.fromWire
  rw [Nat.mod_eq_of_lt (by omega), Nat.mod_eq_of_lt (by omega : s.val < 4294967296)]


/-- `write_frame` on a Settings frame: the header octets followed by the
6-octet records, provided the payload fits 24 bits. -/
theorem write_Settings_elim (ss : List Setting) (ack : Bool) (out : List Nat)
    (hw : write_frame (.Settings ⟨ss, ack⟩) = .ok out) :
    6 * ss.length < 16777216
    ∧ out = (u24Bytes (6 * ss.length) ++ [4, if ack then 1 else 0]
        ++ u32Bytes 0) ++ (ss.map Setting.wireBytes).flatten := by
  unfold write_frame at hw
  simp only [FrameKind.header, FrameKind.into_writer] at hw
  unfold SettingsFrame.write_payload FrameHeader.into_writer at hw
  by_cases h6 : 6 * ss.length < 16777216
  · rw [if_pos h6] at hw
    simp only [rrBind_eq, rrBind_ok, rrPure_eq, RResult.ok.injEq] at hw
    refine ⟨h6, ?_⟩
    rw [← hw]
    cases ack <;> norm_num [TYPE_SETTINGS]
  · rw [if_neg h6] at hw
    simp [rrBind_eq, rrBind_crash] at hw

/-- `write_frame` on a Priority frame with nonzero weight. -/
theorem write_Priority_elim (p : PriorityFrame) (out : List Nat)
    (hw : write_frame (.Priority p) = .ok out) :
    1 ≤ p.weight
    ∧ out = (u24Bytes 5 ++ [2, 0] ++ u32Bytes p.stream_id.val)
        ++ (u32Bytes (if p.exclusive then Nat.lor p.dependency.val 2147483648
            else p.dependency.val) ++ [(p.weight - 1) % 256]) := by
  unfold write_frame at hw
  simp only [FrameKind.header, FrameKind.into_writer] at hw
  unfold FrameHeader.into_writer at hw
  by_cases hw0 : p.weight = 0
  · rw [show p.write_payload = .crash from by
      simp [PriorityFrame.write_payload, hw0]] at hw
    split at hw <;> simp [rrBind_eq, rrBind_ok, rrBind_crash] at hw
  · refine ⟨by omega, ?_⟩
    rw [write_payload_eq p hw0] at hw
    rw [if_pos (show PRIORITY_PAYLOAD_LENGTH < 16777216 by decide)] at hw
    simp only [rrBind_eq, rrBind_ok, rrPure_eq, RResult.ok.injEq] at hw
    rw [← hw]
    norm_num [TYPE_PRIORITY, PRIORITY_PAYLOAD_LENGTH]

/-- `write_frame` on an Unknown record whose flags fit the `Flags` type. -/
theorem write_Unknown_elim (u : UnknownFrame) (out : List Nat)
    (ht : u.frame_type < 256) (hf : Nat.land u.flags FLAGS_ALL = u.flags)
    (hw : write_frame (.Unknown u) = .ok out) :
    u.payload.length < 16777216
    ∧ out = (u24Bytes u.payload.length ++ [u.frame_type, u.flags]
        ++ u32Bytes u.stream_id.val) ++ u.payload := by
  have hf256 : u.flags < 256 := flags_lt_256 hf
  unfold write_frame at hw
  simp only [FrameKind.header, FrameKind.into_writer] at hw
  unfold FrameHeader.into_writer at hw
  split at hw
  case isTrue hlen =>
    refine ⟨hlen, ?_⟩
    simp only [rrBind_eq, rrBind_ok, rrPure_eq, RResult.ok.injEq] at hw
    rw [← hw, Nat.mod_eq_of_lt ht, Nat.mod_eq_of_lt hf256]
  case isFalse => simp [rrBind_eq, rrBind_crash] at hw

/-- `write_frame` on a Headers frame without a priority sub-record. -/
theorem write_Headers_none_elim (hf : HeadersFrame) (out : List Nat)
    (hopt : hf.priority = none)
    (hw : write_frame (.Headers hf) = .ok out) :
    hf.fragment.length < 16777216
    ∧ out = (u24Bytes hf.fragment.length ++ [1, hf.flagBits]
        ++ u32Bytes hf.stream_id.val) ++ hf.fragment := by
  have hfblt := flagBits_lt hf
  unfold write_frame at hw
  simp only [FrameKind.header, FrameKind.into_writer] at hw
  unfold HeadersFrame.into_writer FrameHeader.into_writer at hw
  simp only [hopt] at hw
  simp only [HeadersFrame.payload_len, hopt, Option.isSome_none,
    Bool.false_eq_true, if_false, Nat.add_zero] at hw
  split at hw
  case isTrue hlen =>
    refine ⟨hlen, ?_⟩
    simp only [rrBind_eq, rrBind_ok, rrPure_eq, RResult.ok.injEq,
      List.nil_append] at hw
    rw [← hw, Nat.mod_eq_of_lt hfblt]
    norm_num [TYPE_HEADERS]
  case isFalse => simp [rrBind_eq, rrBind_crash] at hw

/-- `write_frame` on a Headers frame carrying a priority sub-record. -/
theorem write_Headers_some_elim (hf : HeadersFrame) (p : PriorityFrame)
    (out : List Nat) (hopt : hf.priority = some p)
    (hw : write_frame (.Headers hf) = .ok out) :
    hf.fragment.length + 5 < 16777216 ∧ 1 ≤ p.weight
    ∧ out = (u24Bytes (hf.fragment.length + 5) ++ [1, hf.flagBits]
        ++ u32Bytes hf.stream_id.val)
        ++ ((u32Bytes (if p.exclusive then Nat.lor p.dependency.val 2147483648
              else p.dependency.val) ++ [(p.weight - 1) % 256])
            ++ hf.fragment) := by
  have hfblt := flagBits_lt hf
  unfold write_frame at hw
  simp only [FrameKind.header, FrameKind.into_writer] at hw
  unfold HeadersFrame.into_writer FrameHeader.into_writer at hw
  simp only [hopt] at hw
  by_cases hw0 : p.weight = 0
  · rw [show p.write_payload = .crash from by
      simp [PriorityFrame.write_payload, hw0]] at hw
    split at hw <;> simp [rrBind_eq, rrBind_ok, rrBind_crash] at hw
  · rw [write_payload_eq p hw0] at hw
    simp only [HeadersFrame.payload_len, hopt, Option.isSome_some, if_true,
      PRIORITY_PAYLOAD_LENGTH] at hw
    by_cases hlen : hf.fragment.length + 5 < 16777216
    · rw [if_pos hlen] at hw
      refine ⟨hlen, by omega, ?_⟩
      simp only [rrBind_eq, rrBind_ok, rrPure_eq, RResult.ok.injEq] at hw
      rw [← hw, Nat.mod_eq_of_lt hfblt]
      norm_num [TYPE_HEADERS]
    · rw [if_neg hlen] at hw
      simp [rrBind_eq, rrBind_crash] at hw

/-- Decoding the octets produced for a well-formed Settings frame recovers
its settings list and `ack` flag, consuming all input. -/
theorem settings_decode (g : FrameKind) (rest : List Nat) (ss : List Setting)
    (ack : Bool) (hwfs : ∀ x ∈ ss, wfSetting x) (h6 : 6 * ss.length < 16777216)
    (hr : read_frame ((u24Bytes (6 * ss.length) ++ [4, if ack then 1 else 0]
        ++ u32Bytes 0) ++ (ss.map Setting.wireBytes).flatten) = .ok (g, rest)) :
    g = .Settings ⟨ss, ack⟩ ∧ rest = [] := by
  have hmask : fromBitsTruncate (if ack then 1 else 0)
      = (if ack then 1 else 0) := by
    cases ack <;> decide
  have hackb : (Nat.land (if ack then (1 : Nat) else 0) FLAG_ACK != 0) = ack := by
    cases ack <;> decide
  unfold read_frame read_frame_checked at hr
  rw [from_reader_wire] at hr
  simp only [rrBind_eq, rrBind_ok, Nat.mod_eq_of_lt h6, hmask,
    show StreamId.fromWire (0 % 4294967296) = (⟨0⟩ : StreamId) by decide] at hr
  rw [if_neg (show ¬ 6 * ss.length > 2 ^ 64 - 1 by omega),
      if_neg (show (4 : FrameType) ≠ TYPE_HEADERS by decide),
      if_pos (show (4 : FrameType) = TYPE_SETTINGS by decide)] at hr
  unfold SettingsFrame.from_raw at hr
  rw [if_neg (show ¬ ((⟨0⟩ : StreamId) ≠ ⟨0⟩) by decide)] at hr
  simp only [hackb] at hr
  by_cases hc : (ack && (6 * ss.length != 0)) = true
  · rw [if_pos hc] at hr
    simp [RResult.bind] at hr
  · rw [if_neg hc] at hr
    rw [show (6 : Nat) * ss.length = ((ss.map Setting.wireBytes).flatten).length
          from (write_payload_length ss).symm] at hr
    simp only [show readExact ((ss.map Setting.wireBytes).flatten).length
          ((ss.map Setting.wireBytes).flatten)
          = .ok (((ss.map Setting.wireBytes).flatten), ([] : List Nat))
        from by simpa using readExact_append ((ss.map Setting.wireBytes).flatten) []] at hr
    unfold parse_payload at hr
    rw [if_neg (show ¬ (((ss.map Setting.wireBytes).flatten).length % 6 ≠ 0)
          by rw [write_payload_length]; omega)] at hr
    cases hps : parsePairs ((ss.map Setting.wireBytes).flatten) with
    | ok ts =>
      rw [hps] at hr
      simp only [rrBind_eq, rrBind_ok, rrPure_eq, RResult.bind,
        RResult.ok.injEq, Prod.mk.injEq] at hr
      obtain ⟨hg, hrest⟩ := hr
      refine ⟨?_, hrest.symm⟩
      rw [← hg, parsePairs_wireBytes ss hwfs ts hps]
    | err k =>
      rw [hps] at hr
      simp [RResult.bind] at hr
    | crash =>
      rw [hps] at hr
      simp [RResult.bind] at hr

/-- C1 (amended): for every `FrameKind` value whose fields are within their
Rust types' ranges, whose Headers priority sub-record (if present) carries
the frame's own stream id, and which is not an `Unknown` record labelled
with a recognized type octet: if `write_frame` succeeds and `read_frame`
accepts the produced octets, the decoded value is the original frame and no
input remains. -/
theorem c1_frame_roundtrip (f g : FrameKind) (out rest : List Nat)
    (hwf : wfFrame f) (hcoh : priorityCoherent f)
    (hunk : unknownTypeUnrecognized f)
    (hw : write_frame f = .ok out)
    (hr : read_frame out = .ok (g, rest)) :
    g = f ∧ rest = [] := by
  cases f with
  | Headers hfm =>
    obtain ⟨hsh, hwp⟩ := hwf
    have hfb := flagBits_mask hfm
    have hpadf := flagBits_padded hfm
    have hprif := flagBits_priority hfm
    have hehf := flagBits_end_headers hfm
    have hesf := flagBits_end_stream hfm
    cases hopt : hfm.priority with
    | none =>
      obtain ⟨hlen, hout⟩ := write_Headers_none_elim hfm out hopt hw
      subst hout
      unfold read_frame read_frame_checked at hr
      rw [from_reader_wire] at hr
      simp only [rrBind_eq, rrBind_ok, Nat.mod_eq_of_lt hlen, hfb,
        fromWire_mod_self hfm.stream_id hsh] at hr
      rw [if_neg (show ¬ hfm.fragment.length > 2 ^ 64 - 1 by omega),
          if_pos (show (1 : FrameType) = TYPE_HEADERS by decide)] at hr
      by_cases hz : hfm.stream_id = (⟨0⟩ : StreamId)
      · have hdec : HeadersFrame.from_reader
            ⟨hfm.fragment.length, 1, hfm.flagBits, hfm.stream_id⟩ hfm.fragment
            = .err .Protocol := by
          simp [HeadersFrame.from_reader, hz]
        rw [hdec] at hr
        simp [RResult.bind] at hr
      · have hdec : HeadersFrame.from_reader
            ⟨hfm.fragment.length, 1, hfm.flagBits, hfm.stream_id⟩ hfm.fragment
            = .ok (⟨hfm.stream_id, hfm.fragment, none,
                    hfm.end_headers, hfm.end_stream⟩, []) := by
          simp [HeadersFrame.from_reader, hz, hpadf, hprif, hopt, readExact,
            rrBind_eq, rrBind_ok, rrPure_eq, RResult.bind, hehf, hesf]
        rw [hdec] at hr
        simp only [rrBind_eq, rrBind_ok, rrPure_eq, RResult.ok.injEq,
          Prod.mk.injEq] at hr
        obtain ⟨hg, hrest⟩ := hr
        refine ⟨?_, hrest.symm⟩
        rw [← hg, ← hopt]
    | some p =>
      have hcohp : p.stream_id = hfm.stream_id := hcoh p (Option.mem_def.mpr hopt)
      have hwfp : wfPriority p := hwp p (Option.mem_def.mpr hopt)
      obtain ⟨hps1, hpd1, hpw1⟩ := hwfp
      obtain ⟨hlen, hwgt, hout⟩ := write_Headers_some_elim hfm p out hopt hw
      subst hout
      unfold read_frame read_frame_checked at hr
      rw [from_reader_wire] at hr
      simp only [rrBind_eq, rrBind_ok, Nat.mod_eq_of_lt hlen, hfb,
        fromWire_mod_self hfm.stream_id hsh] at hr
      rw [if_neg (show ¬ hfm.fragment.length + 5 > 2 ^ 64 - 1 by omega),
          if_pos (show (1 : FrameType) = TYPE_HEADERS by decide)] at hr
      by_cases hz : hfm.stream_id = (⟨0⟩ : StreamId)
      · have hdec : HeadersFrame.from_reader
            ⟨hfm.fragment.length + 5, 1, hfm.flagBits, hfm.stream_id⟩
            (u32Bytes (if p.exclusive then Nat.lor p.dependency.val 2147483648
              else p.dependency.val) ++ [(p.weight - 1) % 256] ++ hfm.fragment)
            = .err .Protocol := by
          simp [HeadersFrame.from_reader, hz]
        rw [hdec] at hr
        simp [RResult.bind] at hr
      · by_cases hfrag : hfm.fragment = []
        · simp only [hfrag, List.length_nil, Nat.zero_add, List.append_nil] at hr
          have hread := priority_payload_read p
            ⟨5, 1, hfm.flagBits, hfm.stream_id⟩ []
            ⟨hps1, hpd1, hpw1⟩ hwgt hz rfl
          simp only [List.append_nil] at hread
          have hdec : HeadersFrame.from_reader
              ⟨5, 1, hfm.flagBits, hfm.stream_id⟩
              (u32Bytes (if p.exclusive then Nat.lor p.dependency.val 2147483648
                else p.dependency.val) ++ [(p.weight - 1) % 256])
              = .ok (⟨hfm.stream_id, [],
                      some ⟨hfm.stream_id, p.exclusive, p.dependency, p.weight⟩,
                      hfm.end_headers, hfm.end_stream⟩, []) := by
            simp [HeadersFrame.from_reader, hz, hpadf, hprif, hopt, hread,
              checkedSub, readExact, PRIORITY_PAYLOAD_LENGTH,
              rrBind_eq, rrBind_ok, rrPure_eq, RResult.bind, hehf, hesf]
          rw [hdec] at hr
          simp only [rrBind_eq, rrBind_ok, rrPure_eq, RResult.ok.injEq,
            Prod.mk.injEq] at hr
          obtain ⟨hg, hrest⟩ := hr
          refine ⟨?_, hrest.symm⟩
          have hpeq : (⟨hfm.stream_id, p.exclusive, p.dependency, p.weight⟩
              : PriorityFrame) = p := by
            rw [← hcohp]
          rw [← hg, hpeq, ← hfrag, ← hopt]
        · have hne5 : hfm.fragment.length + 5 ≠ 5 := by
            have hpos : 0 < hfm.fragment.length := List.length_pos.mpr hfrag
            omega
          have hdec : HeadersFrame.from_reader
              ⟨hfm.fragment.length + 5, 1, hfm.flagBits, hfm.stream_id⟩
              (u32Bytes (if p.exclusive then Nat.lor p.dependency.val 2147483648
                else p.dependency.val) ++ [(p.weight - 1) % 256] ++ hfm.fragment)
              = .err .FrameSize := by
            simp [HeadersFrame.from_reader, hz, hpadf, hprif, hopt,
              PriorityFrame.read, PRIORITY_PAYLOAD_LENGTH, hne5,
              rrBind_eq, rrBind_ok, rrBind_err, rrPure_eq, RResult.bind]
          rw [hdec] at hr
          simp [RResult.bind] at hr
  | Priority p =>
    obtain ⟨hps0, hpd0, hpw0⟩ := hwf
    obtain ⟨hwgt, hout⟩ := write_Priority_elim p out hw
    subst hout
    unfold read_frame read_frame_checked at hr
    rw [from_reader_wire] at hr
    simp only [rrBind_eq, rrBind_ok, show (5 : Nat) % 16777216 = 5 by decide,
      show fromBitsTruncate 0 = 0 by decide,
      fromWire_mod_self p.stream_id hps0] at hr
    rw [if_neg (show ¬ (5 : Nat) > 2 ^ 64 - 1 by omega),
        if_neg (show (2 : FrameType) ≠ TYPE_HEADERS by decide),
        if_neg (show (2 : FrameType) ≠ TYPE_SETTINGS by decide),
        if_pos (show (2 : FrameType) = TYPE_PRIORITY by decide)] at hr
    by_cases hz : p.stream_id = (⟨0⟩ : StreamId)
    · have hdec : PriorityFrame.read ⟨5, 2, 0, p.stream_id⟩
          (u32Bytes (if p.exclusive then Nat.lor p.dependency.val 2147483648
            else p.dependency.val) ++ [(p.weight - 1) % 256])
          = .err .Protocol := by
        simp [PriorityFrame.read, hz]
      rw [hdec] at hr
      simp [RResult.bind] at hr
    · have hread := priority_payload_read p ⟨5, 2, 0, p.stream_id⟩ []
        ⟨hps0, hpd0, hpw0⟩ hwgt hz rfl
      simp only [List.append_nil] at hread
      rw [hread] at hr
      simp only [rrBind_eq, rrBind_ok, rrPure_eq, RResult.ok.injEq,
        Prod.mk.injEq] at hr
      obtain ⟨hg, hrest⟩ := hr
      exact ⟨hg.symm, hrest.symm⟩
  | Settings s =>
    rcases s with ⟨ss, ack⟩
    have hwfs : ∀ x ∈ ss, wfSetting x := hwf
    obtain ⟨h6, hout⟩ := write_Settings_elim ss ack out hw
    subst hout
    exact settings_decode g rest ss ack hwfs h6 hr
  | Unknown u =>
    obtain ⟨hsu, htu, hfu⟩ := hwf
    obtain ⟨hn1, hn2, hn4⟩ := hunk
    obtain ⟨hlen, hout⟩ := write_Unknown_elim u out htu hfu hw
    subst hout
    unfold read_frame read_frame_checked at hr
    rw [from_reader_wire] at hr
    simp only [rrBind_eq, rrBind_ok, Nat.mod_eq_of_lt hlen,
      show fromBitsTruncate u.flags = u.flags from hfu,
      fromWire_mod_self u.stream_id hsu] at hr
    rw [if_neg (show ¬ u.payload.length > 2 ^ 64 - 1 by omega),
        if_neg hn1, if_neg hn4, if_neg hn2] at hr
    simp only [UnknownFrame.from_reader,
      show readExact u.payload.length u.payload = .ok (u.payload, ([] : List Nat))
        from by simpa using readExact_append u.payload [],
      rrBind_eq, rrBind_ok, rrPure_eq, RResult.ok.injEq, Prod.mk.injEq] at hr
    obtain ⟨hg, hrest⟩ := hr
    exact ⟨hg.symm, hrest.symm⟩

/-- Witness for C1: a Priority frame (stream 1, non-exclusive dependency on
stream 0, weight 16) encodes to 14 octets and decodes back to itself with no
input left over. -/
theorem c1_frame_roundtrip_witness :
    write_frame (.Priority ⟨⟨1⟩, false, ⟨0⟩, 16⟩)
      = .ok [0, 0, 5, 2, 0, 0, 0, 0, 1, 0, 0, 0, 0, 15]
    ∧ ((.Priority ⟨⟨1⟩, false, ⟨0⟩, 16⟩ : FrameKind)
        = .Priority ⟨⟨1⟩, false, ⟨0⟩, 16⟩ ∧ ([] : List Nat) = []) := by
  refine ⟨by decide, ?_⟩
  exact c1_frame_roundtrip (.Priority ⟨⟨1⟩, false, ⟨0⟩, 16⟩)
    (.Priority ⟨⟨1⟩, false, ⟨0⟩, 16⟩)
    [0, 0, 5, 2, 0, 0, 0, 0, 1, 0, 0, 0, 0, 15] []
    ⟨show (1 : Nat) < 2147483648 by decide, show (0 : Nat) < 2147483648 by decide,
     show (16 : Nat) < 256 by decide⟩ True.intro True.intro
    (by decide) (by decide)

end Deuter
